import Mathlib

/-!
Verification development for the docx-tool SQL adapter
(`src/sql_parser/mod.rs`, `src/sql_parser/tables.rs`, `src/sql_parser/cell.rs`).

The adapter projects a parsed docx document (tables, rows, cells and their
style-property bags, provided by the external `docx-rs` crate) into relational
rows for the `gluesql` storage interface, and writes column updates keyed by a
content hash back into the document.

The embedding below models:
 * a JSON value type together with a renderer (for `serde_json::to_string`)
   and a fueled parser (for `serde_json::from_str`);
 * SHA-256 over UTF-8 bytes (for the content hashes, `sha2` + `hex`);
 * the slice of the `docx-rs` document model the adapter touches;
 * the `gluesql` data types used (`Value`, `Key`, `DataRow`, schemas);
 * the three adapter implementations: `DocxDb` (mod.rs), `Tables`
   (tables.rs) and `Cell` (cell.rs), with in-place mutation rendered as
   explicit state passing.
-/

/-! ## JSON values (model of `serde_json::Value`) -/

/-- Model of `serde_json::Value`.  Numbers are restricted to integers: the
adapter only ever serializes unsigned integers (`usize` sizes and widths), and
`as_u64` on a non-integer number returns `None`, which the integer-only model
reproduces by failing the parse of a non-integer literal. -/
inductive Json where
  | null : Json
  | bool (b : Bool) : Json
  | str (s : String) : Json
  | num (n : Int) : Json
  | arr (elems : List Json) : Json
  | obj (fields : List (String × Json)) : Json
deriving Repr

/-- `serde_json::Value::get(key)`: field lookup on an object, `None` otherwise. -/
def Json.get : Json → String → Option Json
  | .obj fields, k => fields.lookup k
  | _, _ => none

/-- `serde_json::Value::as_str`. -/
def Json.asStr : Json → Option String
  | .str s => some s
  | _ => none

/-- `serde_json::Value::as_u64`: a number that is a nonnegative integer. -/
def Json.asU64 : Json → Option Nat
  | .num n => if 0 ≤ n then some n.toNat else none
  | _ => none

/-- Escape one character for a JSON string literal (quotes and backslashes;
control characters do not occur in the adapter's data). -/
def jsonEscapeChar (c : Char) : String :=
  if c = '"' then "\\\"" else if c = '\\' then "\\\\" else String.singleton c

def jsonEscape (s : String) : String :=
  String.join (s.data.map jsonEscapeChar)

mutual

/-- Model of `serde_json::to_string` on a `Json` value (always succeeds on
values produced by the serializers below; see `serdeToString`). -/
def Json.render : Json → String
  | .null => "null"
  | .bool true => "true"
  | .bool false => "false"
  | .str s => "\"" ++ jsonEscape s ++ "\""
  | .num n => toString n
  | .arr xs => "[" ++ Json.renderArr xs ++ "]"
  | .obj kvs => "\x7b" ++ Json.renderObj kvs ++ "\x7d"

def Json.renderArr : List Json → String
  | [] => ""
  | [x] => x.render
  | x :: xs => x.render ++ "," ++ Json.renderArr xs

def Json.renderObj : List (String × Json) → String
  | [] => ""
  | [(k, v)] => "\"" ++ jsonEscape k ++ "\":" ++ v.render
  | (k, v) :: kvs => "\"" ++ jsonEscape k ++ "\":" ++ v.render ++ "," ++ Json.renderObj kvs

end

/-- `serde_json::to_string`: total on the values the serializers build
(serialization only fails for maps with non-string keys, which cannot arise
from the derived serializers modelled here), hence modelled as `some`. -/
def serdeToString (j : Json) : Option String :=
  some j.render

/-! ### Fueled JSON parser (model of `serde_json::from_str`)

The model parses the JSON subset the adapter can meet in border-update
values: objects, arrays, strings with `\"`/`\\` escapes, integer numbers,
booleans and `null`.  Non-integer numbers and `\u` escapes are not modelled;
the adapter never reads such values (`as_u64` rejects them anyway). -/

def skipWs (cs : List Char) : List Char :=
  cs.dropWhile (fun c => c = ' ' ∨ c = '\n' ∨ c = '\t' ∨ c = '\r')

/-- Parse the body of a string literal after the opening quote. -/
def parseStrChars : List Char → Option (String × List Char)
  | [] => none
  | '"' :: rest => some ("", rest)
  | '\\' :: c :: rest => do
      let esc ←
        if c = '"' then some "\""
        else if c = '\\' then some "\\"
        else if c = 'n' then some "\n"
        else if c = 't' then some "\t"
        else if c = 'r' then some "\r"
        else if c = '/' then some "/"
        else none
      let (s, rest') ← parseStrChars rest
      return (esc ++ s, rest')
  | c :: rest => do
      let (s, rest') ← parseStrChars rest
      return (String.singleton c ++ s, rest')

def digitsToNat (ds : List Char) : Nat :=
  ds.foldl (fun a c => a * 10 + (c.toNat - 48)) 0

mutual

def parseVal : Nat → List Char → Option (Json × List Char)
  | 0, _ => none
  | fuel + 1, cs =>
    match skipWs cs with
    | 'n' :: 'u' :: 'l' :: 'l' :: rest => some (.null, rest)
    | 't' :: 'r' :: 'u' :: 'e' :: rest => some (.bool true, rest)
    | 'f' :: 'a' :: 'l' :: 's' :: 'e' :: rest => some (.bool false, rest)
    | '"' :: rest =>
        match parseStrChars rest with
        | some (s, rest') => some (.str s, rest')
        | none => none
    | '[' :: rest =>
        (match skipWs rest with
         | ']' :: rest' => some (.arr [], rest')
         | _ => parseArrItems fuel rest [])
    | '\x7b' :: rest =>
        (match skipWs rest with
         | '\x7d' :: rest' => some (.obj [], rest')
         | _ => parseObjItems fuel rest [])
    | '-' :: c :: rest =>
        if c.isDigit then
          let (ds, rest') := (c :: rest).span Char.isDigit
          match rest' with
          | '.' :: _ => none
          | 'e' :: _ => none
          | 'E' :: _ => none
          | _ => some (.num (-(digitsToNat ds : Int)), rest')
        else none
    | c :: rest =>
        if c.isDigit then
          let (ds, rest') := (c :: rest).span Char.isDigit
          match rest' with
          | '.' :: _ => none
          | 'e' :: _ => none
          | 'E' :: _ => none
          | _ => some (.num (digitsToNat ds : Int), rest')
        else none
    | [] => none

def parseArrItems : Nat → List Char → List Json → Option (Json × List Char)
  | 0, _, _ => none
  | fuel + 1, cs, acc => do
      let (v, rest) ← parseVal fuel cs
      match skipWs rest with
      | ',' :: rest' => parseArrItems fuel rest' (acc ++ [v])
      | ']' :: rest' => some (.arr (acc ++ [v]), rest')
      | _ => none

def parseObjItems : Nat → List Char → List (String × Json) → Option (Json × List Char)
  | 0, _, _ => none
  | fuel + 1, cs, acc =>
    match skipWs cs with
    | '"' :: rest => do
        let (k, rest₁) ← parseStrChars rest
        match skipWs rest₁ with
        | ':' :: rest₂ => do
            let (v, rest₃) ← parseVal fuel rest₂
            match skipWs rest₃ with
            | ',' :: rest₄ => parseObjItems fuel rest₄ (acc ++ [(k, v)])
            | '\x7d' :: rest₄ => some (.obj (acc ++ [(k, v)]), rest₄)
            | _ => none
        | _ => none
    | _ => none

end

/-- Model of `serde_json::from_str::<serde_json::Value>`: parse a complete
JSON document (no trailing garbage). -/
def serdeFromStr (s : String) : Option Json := do
  let (v, rest) ← parseVal (s.length + 1) s.data
  if skipWs rest = [] then return v else none

/-! ## SHA-256 (model of the `sha2` crate + `hex::encode`) -/

def pow32 : Nat := 4294967296

/-- Truncate to a 32-bit word. -/
def w32 (n : Nat) : Nat := n % pow32

/-- 32-bit rotate right. -/
def rotr (r n : Nat) : Nat := w32 ((n >>> r) + ((n % (2 ^ r)) <<< (32 - r)))

/-- 32-bit bitwise complement. -/
def not32 (n : Nat) : Nat := (pow32 - 1) - n

def bigSigma0 (x : Nat) : Nat := (rotr 2 x) ^^^ (rotr 13 x) ^^^ (rotr 22 x)
def bigSigma1 (x : Nat) : Nat := (rotr 6 x) ^^^ (rotr 11 x) ^^^ (rotr 25 x)
def smallSigma0 (x : Nat) : Nat := (rotr 7 x) ^^^ (rotr 18 x) ^^^ (x >>> 3)
def smallSigma1 (x : Nat) : Nat := (rotr 17 x) ^^^ (rotr 19 x) ^^^ (x >>> 10)
def shaCh (x y z : Nat) : Nat := (x &&& y) ^^^ ((not32 x) &&& z)
def shaMaj (x y z : Nat) : Nat := (x &&& y) ^^^ (x &&& z) ^^^ (y &&& z)

/-- Largest `x` with `x^3 ≤ n`, by bisection on a fuel bound. -/
def icbrtAux : Nat → Nat → Nat → Nat → Nat
  | 0, lo, _, _ => lo
  | fuel + 1, lo, hi, n =>
    if hi ≤ lo + 1 then lo
    else
      let mid := (lo + hi) / 2
      if mid ^ 3 ≤ n then icbrtAux fuel mid hi n else icbrtAux fuel lo mid n

def icbrt (n : Nat) : Nat := icbrtAux 200 0 (n + 1) n

/-- The first 64 primes, sources of the SHA-256 round constants. -/
def sha256Primes : List Nat :=
  [2, 3, 5, 7, 11, 13, 17, 19, 23, 29, 31, 37, 41, 43, 47, 53,
   59, 61, 67, 71, 73, 79, 83, 89, 97, 101, 103, 107, 109, 113, 127, 131,
   137, 139, 149, 151, 157, 163, 167, 173, 179, 181, 191, 193, 197, 199, 211, 223,
   227, 229, 233, 239, 241, 251, 257, 263, 269, 271, 277, 281, 283, 293, 307, 311]

/-- Round constants: first 32 bits of the fractional parts of the cube roots
of the first 64 primes. -/
def sha256K : List Nat :=
  sha256Primes.map (fun p => w32 (icbrt (p * 2 ^ 96)))

/-- Initial hash value: first 32 bits of the fractional parts of the square
roots of the first 8 primes. -/
def sha256H0 : List Nat :=
  (sha256Primes.take 8).map (fun p => w32 (Nat.sqrt (p * 2 ^ 64)))

/-- UTF-8 encode one character. -/
def utf8EncodeCharNat (c : Char) : List Nat :=
  let n := c.toNat
  if n < 128 then [n]
  else if n < 2048 then [192 + n / 64, 128 + n % 64]
  else if n < 65536 then [224 + n / 4096, 128 + n / 64 % 64, 128 + n % 64]
  else [240 + n / 262144, 128 + n / 4096 % 64, 128 + n / 64 % 64, 128 + n % 64]

def utf8Bytes (s : String) : List Nat :=
  s.data.flatMap utf8EncodeCharNat

/-- Big-endian bytes of a 64-bit value. -/
def be64 (n : Nat) : List Nat :=
  [n / 2 ^ 56 % 256, n / 2 ^ 48 % 256, n / 2 ^ 40 % 256, n / 2 ^ 32 % 256,
   n / 2 ^ 24 % 256, n / 2 ^ 16 % 256, n / 2 ^ 8 % 256, n % 256]

/-- SHA-256 padding of a byte string. -/
def sha256Pad (msg : List Nat) : List Nat :=
  let l := msg.length
  msg ++ [128] ++ List.replicate ((64 + 55 - l % 64) % 64) 0 ++ be64 (8 * l)

/-- Split into 64-byte blocks (the fuel is the list length, enough since each
step drops 64 > 0 elements). -/
def toBlocksAux : Nat → List Nat → List (List Nat)
  | 0, _ => []
  | _, [] => []
  | fuel + 1, l => l.take 64 :: toBlocksAux fuel (l.drop 64)

def toBlocks (l : List Nat) : List (List Nat) := toBlocksAux l.length l

/-- Pack a 64-byte block into 16 big-endian 32-bit words. -/
def toWordsAux : Nat → List Nat → List Nat
  | 0, _ => []
  | fuel + 1, b0 :: b1 :: b2 :: b3 :: rest =>
      (b0 * 2 ^ 24 + b1 * 2 ^ 16 + b2 * 2 ^ 8 + b3) :: toWordsAux fuel rest
  | _ + 1, _ => []

def toWords (block : List Nat) : List Nat := toWordsAux block.length block

/-- Extend 16 words to the 64-word message schedule. -/
def extendScheduleAux : Nat → List Nat → List Nat
  | 0, ws => ws
  | fuel + 1, ws =>
      let n := ws.length
      let wNew := w32 (smallSigma1 (ws.getD (n - 2) 0) + ws.getD (n - 7) 0 +
        smallSigma0 (ws.getD (n - 15) 0) + ws.getD (n - 16) 0)
      extendScheduleAux fuel (ws ++ [wNew])

def extendSchedule (ws : List Nat) : List Nat := extendScheduleAux 48 ws

/-- One round of the SHA-256 compression function. -/
def sha256Round (st : Nat × Nat × Nat × Nat × Nat × Nat × Nat × Nat) (kw : Nat × Nat) :
    Nat × Nat × Nat × Nat × Nat × Nat × Nat × Nat :=
  let (a, b, c, d, e, f, g, h) := st
  let (k, w) := kw
  let t1 := w32 (h + bigSigma1 e + shaCh e f g + k + w)
  let t2 := w32 (bigSigma0 a + shaMaj a b c)
  (w32 (t1 + t2), a, b, c, w32 (d + t1), e, f, g)

/-- Process one 64-byte block against the running hash. -/
def sha256Block (hv : List Nat) (block : List Nat) : List Nat :=
  let ws := extendSchedule (toWords block)
  let init := (hv.getD 0 0, hv.getD 1 0, hv.getD 2 0, hv.getD 3 0,
               hv.getD 4 0, hv.getD 5 0, hv.getD 6 0, hv.getD 7 0)
  let (a, b, c, d, e, f, g, h) := (sha256K.zip ws).foldl sha256Round init
  [w32 (hv.getD 0 0 + a), w32 (hv.getD 1 0 + b), w32 (hv.getD 2 0 + c),
   w32 (hv.getD 3 0 + d), w32 (hv.getD 4 0 + e), w32 (hv.getD 5 0 + f),
   w32 (hv.getD 6 0 + g), w32 (hv.getD 7 0 + h)]

def hexDigit (n : Nat) : Char :=
  if n < 10 then Char.ofNat (48 + n) else Char.ofNat (87 + n)

/-- Lowercase hex of one 32-bit word (model of `hex::encode` per word). -/
def wordHex (n : Nat) : String :=
  String.mk ((List.range 8).map (fun i => hexDigit (n >>> (28 - 4 * i) % 16)))

/-- SHA-256 of a string's UTF-8 bytes, hex-encoded: the adapter's
`Sha256::digest` + `hex::encode` pipeline. -/
def sha256Hex (s : String) : String :=
  String.join (((toBlocks (sha256Pad (utf8Bytes s))).foldl sha256Block sha256H0).map wordHex)

/-! ## Document model (slice of the external `docx-rs` crate)

The document tree and its style bags belong to the external `docx-rs`
collaborator.  The structures below model exactly the fields the adapter
reads or writes; remaining `docx-rs` fields (table grid, cell grid-span,
nested-table payloads, ...) are not touched by the adapter and are elided.
The builder methods (`width`, `align`, `set_border`) and the serde
serializations follow the crate's derived `camelCase` serialization and its
documented builder semantics. -/

/-- `docx_rs::WidthType`. -/
inductive WidthType where
  | dxa | auto | pct | nil | unsupported
deriving Repr, DecidableEq

/-- Serde serialization of `WidthType` (lowercase strings). -/
def WidthType.toStr : WidthType → String
  | .dxa => "dxa"
  | .auto => "auto"
  | .pct => "pct"
  | .nil => "nil"
  | .unsupported => "unsupported"

/-- `WidthType::from_str`: recognizes the named width types, errs otherwise
(the adapter only consumes it through `.ok()`, so the error payload is
dropped and `Option` suffices). -/
def WidthType.fromStr : String → Option WidthType
  | "dxa" => some .dxa
  | "auto" => some .auto
  | "pct" => some .pct
  | "nil" => some .nil
  | _ => none

/-- `docx_rs::TableAlignmentType`. -/
inductive TableAlignmentType where
  | center | left | right
deriving Repr, DecidableEq

def TableAlignmentType.toStr : TableAlignmentType → String
  | .center => "center"
  | .left => "left"
  | .right => "right"

/-- `TableAlignmentType::from_str`. -/
def TableAlignmentType.fromStr : String → Option TableAlignmentType
  | "center" => some .center
  | "left" => some .left
  | "right" => some .right
  | _ => none

/-- `docx_rs::BorderType` (the commonly used variants; the adapter treats the
parse result opaquely, so the exact variant set is not load-bearing). -/
inductive BorderType where
  | single | thick | double | dotted | dashed | nilBorder
deriving Repr, DecidableEq

def BorderType.toStr : BorderType → String
  | .single => "single"
  | .thick => "thick"
  | .double => "double"
  | .dotted => "dotted"
  | .dashed => "dashed"
  | .nilBorder => "nil"

/-- `BorderType::from_str`. -/
def BorderType.fromStr : String → Option BorderType
  | "single" => some .single
  | "thick" => some .thick
  | "double" => some .double
  | "dotted" => some .dotted
  | "dashed" => some .dashed
  | "nil" => some .nilBorder
  | _ => none

/-- `docx_rs::TableWidth` (serialized as an object with `width`/`widthType`). -/
structure TableWidth where
  width : Nat
  widthType : WidthType
deriving Repr, DecidableEq

/-- `docx_rs::TableBorderPosition`. -/
inductive TableBorderPosition where
  | top | left | bottom | right | insideH | insideV
deriving Repr, DecidableEq

def TableBorderPosition.toStr : TableBorderPosition → String
  | .top => "top"
  | .left => "left"
  | .bottom => "bottom"
  | .right => "right"
  | .insideH => "insideH"
  | .insideV => "insideV"

/-- `docx_rs::TableBorder`. -/
structure TableBorder where
  borderType : BorderType
  size : Nat
  color : String
  position : TableBorderPosition
deriving Repr, DecidableEq

/-- `TableBorder::new(position)`: the crate's defaults. -/
def TableBorder.new (position : TableBorderPosition) : TableBorder :=
  { borderType := .single, size := 2, color := "000000", position := position }

def TableBorder.setColor (b : TableBorder) (c : String) : TableBorder :=
  { b with color := c }

def TableBorder.setSize (b : TableBorder) (s : Nat) : TableBorder :=
  { b with size := s }

def TableBorder.setBorderType (b : TableBorder) (t : BorderType) : TableBorder :=
  { b with borderType := t }

/-- `docx_rs::TableBorders`: the six positional slots. -/
structure TableBorders where
  top : Option TableBorder
  left : Option TableBorder
  bottom : Option TableBorder
  right : Option TableBorder
  insideH : Option TableBorder
  insideV : Option TableBorder
deriving Repr, DecidableEq

/-- `TableBorders::set(border)`: replace the slot named by the border's
position, leaving the other slots untouched. -/
def TableBorders.set (bs : TableBorders) (b : TableBorder) : TableBorders :=
  match b.position with
  | .top => { bs with top := some b }
  | .left => { bs with left := some b }
  | .bottom => { bs with bottom := some b }
  | .right => { bs with right := some b }
  | .insideH => { bs with insideH := some b }
  | .insideV => { bs with insideV := some b }

/-- `docx_rs::TableProperty`: the fields the adapter reads or writes. -/
structure TableProperty where
  width : Option TableWidth
  justification : Option String
  borders : TableBorders
deriving Repr, DecidableEq

/-- `TableProperty::width(w, t)` (builder; renamed `setWidth` because the
record field is already called `width`). -/
def TableProperty.setWidth (p : TableProperty) (w : Nat) (t : WidthType) : TableProperty :=
  { p with width := some { width := w, widthType := t } }

/-- `TableProperty::align(v)`. -/
def TableProperty.align (p : TableProperty) (v : TableAlignmentType) : TableProperty :=
  { p with justification := some v.toStr }

/-- `TableProperty::set_border(border)`. -/
def TableProperty.set_border (p : TableProperty) (b : TableBorder) : TableProperty :=
  { p with borders := p.borders.set b }

/-- `docx_rs::TableCellBorderPosition` (the six positions the adapter uses;
the diagonal positions are never built by the adapter). -/
inductive TableCellBorderPosition where
  | top | left | bottom | right | insideH | insideV
deriving Repr, DecidableEq

def TableCellBorderPosition.toStr : TableCellBorderPosition → String
  | .top => "top"
  | .left => "left"
  | .bottom => "bottom"
  | .right => "right"
  | .insideH => "insideH"
  | .insideV => "insideV"

/-- `docx_rs::TableCellBorder`. -/
structure TableCellBorder where
  borderType : BorderType
  size : Nat
  color : String
  position : TableCellBorderPosition
deriving Repr, DecidableEq

/-- `TableCellBorder::new(position)`: the crate's defaults. -/
def TableCellBorder.new (position : TableCellBorderPosition) : TableCellBorder :=
  { borderType := .single, size := 2, color := "000000", position := position }

def TableCellBorder.setColor (b : TableCellBorder) (c : String) : TableCellBorder :=
  { b with color := c }

def TableCellBorder.setSize (b : TableCellBorder) (s : Nat) : TableCellBorder :=
  { b with size := s }

def TableCellBorder.setBorderType (b : TableCellBorder) (t : BorderType) : TableCellBorder :=
  { b with borderType := t }

/-- `docx_rs::TableCellBorders`. -/
structure TableCellBorders where
  top : Option TableCellBorder
  left : Option TableCellBorder
  bottom : Option TableCellBorder
  right : Option TableCellBorder
  insideH : Option TableCellBorder
  insideV : Option TableCellBorder
deriving Repr, DecidableEq

/-- `TableCellBorders::default()`: the crate fills the six slots with default
borders for their positions. -/
def TableCellBorders.default : TableCellBorders :=
  { top := some (TableCellBorder.new .top), left := some (TableCellBorder.new .left),
    bottom := some (TableCellBorder.new .bottom), right := some (TableCellBorder.new .right),
    insideH := some (TableCellBorder.new .insideH), insideV := some (TableCellBorder.new .insideV) }

/-- `TableCellBorders::set(border)`. -/
def TableCellBorders.set (bs : TableCellBorders) (b : TableCellBorder) : TableCellBorders :=
  match b.position with
  | .top => { bs with top := some b }
  | .left => { bs with left := some b }
  | .bottom => { bs with bottom := some b }
  | .right => { bs with right := some b }
  | .insideH => { bs with insideH := some b }
  | .insideV => { bs with insideV := some b }

/-- `docx_rs::TableCellProperty`: the fields the adapter reads or writes. -/
structure TableCellProperty where
  width : Option TableWidth
  borders : Option TableCellBorders
deriving Repr, DecidableEq

/-- `TableCellProperty::width(w, t)` (builder; renamed for the same reason as
`TableProperty.setWidth`). -/
def TableCellProperty.setWidth (p : TableCellProperty) (w : Nat) (t : WidthType) :
    TableCellProperty :=
  { p with width := some { width := w, widthType := t } }

/-- `TableCellProperty::set_border(border)`:
`self.borders = Some(self.borders.unwrap_or_default().set(border))`. -/
def TableCellProperty.set_border (p : TableCellProperty) (b : TableCellBorder) :
    TableCellProperty :=
  { p with borders := some ((p.borders.getD TableCellBorders.default).set b) }

/-- `docx_rs::RunChild`: a text node or another run child (tabs, breaks, ...),
which the adapter maps to the empty string. -/
inductive RunChild where
  | text (t : String)
  | other
deriving Repr, DecidableEq

structure Run where
  children : List RunChild
deriving Repr, DecidableEq

/-- `docx_rs::ParagraphChild`: a run or another paragraph child, which the
adapter skips. -/
inductive ParagraphChild where
  | run (r : Run)
  | other
deriving Repr, DecidableEq

structure Paragraph where
  children : List ParagraphChild
deriving Repr, DecidableEq

/-- `docx_rs::TableCellContent`: a paragraph or a nested table.  The adapter
never descends into nested tables, so the nested payload is elided. -/
inductive TableCellContent where
  | paragraph (p : Paragraph)
  | table
deriving Repr, DecidableEq

structure TableCell where
  children : List TableCellContent
  property : TableCellProperty
deriving Repr, DecidableEq

/-- `docx_rs::TableRowChild` (single variant). -/
inductive TableRowChild where
  | tableCell (c : TableCell)
deriving Repr, DecidableEq

structure TableRow where
  cells : List TableRowChild
deriving Repr, DecidableEq

/-- `docx_rs::TableChild` (single variant). -/
inductive TableChild where
  | tableRow (r : TableRow)
deriving Repr, DecidableEq

structure Table where
  rows : List TableChild
  property : TableProperty
deriving Repr, DecidableEq

/-- `docx_rs::DocumentChild`: a table, or any of the other child kinds
(paragraphs, section properties, ...), which the adapter skips. -/
inductive DocumentChild where
  | table (t : Table)
  | paragraph
deriving Repr, DecidableEq

structure Document where
  children : List DocumentChild
deriving Repr, DecidableEq

/-! ## gluesql data types (the slice the adapter uses) -/

/-- `gluesql::data::Value` (variants the adapter produces or matches). -/
inductive Value where
  | null
  | str (s : String)
  | i32 (n : Int)
  | u32 (n : Nat)
deriving Repr, DecidableEq

/-- `gluesql::data::Key` (the adapter builds only `Key::Str`; one further
variant keeps quantification over foreign keys meaningful). -/
inductive Key where
  | str (s : String)
  | i64 (n : Int)
deriving Repr, DecidableEq

/-- `gluesql::store::DataRow`. -/
inductive DataRow where
  | map (kvs : List (String × Value))
  | vec (vs : List Value)
deriving Repr, DecidableEq

/-- `gluesql::prelude::Error` (the adapter only constructs `StorageMsg`). -/
inductive StorageError where
  | storageMsg (s : String)
deriving Repr, DecidableEq

/-- `gluesql::prelude::DataType` (the two types the schemas use). -/
inductive DataType where
  | text
  | uint32
deriving Repr, DecidableEq

/-- `gluesql::ast::ColumnDef` (fields the schemas set; `default` and `unique`
are always `None` in the source and elided). -/
structure ColumnDef where
  name : String
  dataType : DataType
  nullable : Bool
  comment : Option String
deriving Repr, DecidableEq

/-- `gluesql::data::Schema` (`indexes`, `engine`, `foreign_keys`, `comment`
are always empty in the source and elided). -/
structure Schema where
  table_name : String
  column_defs : Option (List ColumnDef)
deriving Repr, DecidableEq

/-- Rust `as i32` on a usize (two's-complement truncation). -/
def natAsI32 (n : Nat) : Int :=
  let m := n % pow32
  if m < 2 ^ 31 then (m : Int) else (m : Int) - (pow32 : Int)

/-- Rust `as u32` on a u64/usize (truncation). -/
def natAsU32 (n : Nat) : Nat := n % pow32

/-! ## Serde serialization of the style bags and elements -/

def optionToJson (f : α → Json) : Option α → Json
  | none => .null
  | some x => f x

def TableWidth.toJson (w : TableWidth) : Json :=
  .obj [("width", .num (w.width : Int)), ("widthType", .str w.widthType.toStr)]

def TableBorder.toJson (b : TableBorder) : Json :=
  .obj [("borderType", .str b.borderType.toStr), ("size", .num (b.size : Int)),
        ("color", .str b.color), ("position", .str b.position.toStr)]

def TableBorders.toJson (bs : TableBorders) : Json :=
  .obj [("top", optionToJson TableBorder.toJson bs.top),
        ("left", optionToJson TableBorder.toJson bs.left),
        ("bottom", optionToJson TableBorder.toJson bs.bottom),
        ("right", optionToJson TableBorder.toJson bs.right),
        ("insideH", optionToJson TableBorder.toJson bs.insideH),
        ("insideV", optionToJson TableBorder.toJson bs.insideV)]

def TableProperty.toJson (p : TableProperty) : Json :=
  .obj [("width", optionToJson TableWidth.toJson p.width),
        ("justification", optionToJson Json.str p.justification),
        ("borders", p.borders.toJson)]

def TableCellBorder.toJson (b : TableCellBorder) : Json :=
  .obj [("borderType", .str b.borderType.toStr), ("size", .num (b.size : Int)),
        ("color", .str b.color), ("position", .str b.position.toStr)]

def TableCellBorders.toJson (bs : TableCellBorders) : Json :=
  .obj [("top", optionToJson TableCellBorder.toJson bs.top),
        ("left", optionToJson TableCellBorder.toJson bs.left),
        ("bottom", optionToJson TableCellBorder.toJson bs.bottom),
        ("right", optionToJson TableCellBorder.toJson bs.right),
        ("insideH", optionToJson TableCellBorder.toJson bs.insideH),
        ("insideV", optionToJson TableCellBorder.toJson bs.insideV)]

def TableCellProperty.toJson (p : TableCellProperty) : Json :=
  .obj [("width", optionToJson TableWidth.toJson p.width),
        ("borders", optionToJson TableCellBorders.toJson p.borders)]

def RunChild.toJson : RunChild → Json
  | .text s => .obj [("type", .str "text"), ("data", .obj [("text", .str s)])]
  | .other => .obj [("type", .str "other")]

def Run.toJson (r : Run) : Json :=
  .obj [("children", .arr (r.children.map RunChild.toJson))]

def ParagraphChild.toJson : ParagraphChild → Json
  | .run r => .obj [("type", .str "run"), ("data", r.toJson)]
  | .other => .obj [("type", .str "other")]

def Paragraph.toJson (p : Paragraph) : Json :=
  .obj [("children", .arr (p.children.map ParagraphChild.toJson))]

def TableCellContent.toJson : TableCellContent → Json
  | .paragraph p => .obj [("type", .str "paragraph"), ("data", p.toJson)]
  | .table => .obj [("type", .str "table")]

def TableCell.toJson (c : TableCell) : Json :=
  .obj [("children", .arr (c.children.map TableCellContent.toJson)),
        ("property", c.property.toJson)]

def TableRowChild.toJson : TableRowChild → Json
  | .tableCell c => .obj [("type", .str "tableCell"), ("data", c.toJson)]

def TableRow.toJson (r : TableRow) : Json :=
  .obj [("cells", .arr (r.cells.map TableRowChild.toJson))]

def TableChild.toJson : TableChild → Json
  | .tableRow r => .obj [("type", .str "tableRow"), ("data", r.toJson)]

def Table.toJson (t : Table) : Json :=
  .obj [("rows", .arr (t.rows.map TableChild.toJson)), ("property", t.property.toJson)]

/-! ## Content hashes

`serde_json::to_string(x).unwrap_or("".to_string())` followed by
`hex::encode(Sha256::digest(...))`. -/

def tableHash (t : Table) : String :=
  sha256Hex ((serdeToString t.toJson).getD "")

def cellHash (c : TableCell) : String :=
  sha256Hex ((serdeToString c.toJson).getD "")

/-! ## Projection helpers (the JSON path reads in `scan_data`) -/

/-- `property_value.get("width").and_then(get("width")).and_then(as_u64)
.and_then(as u32).unwrap_or(0)`. -/
def tableWidthRead (p : TableProperty) : Nat :=
  (((((p.toJson.get "width").bind (fun j => j.get "width")).bind Json.asU64)).map natAsU32).getD 0

/-- `property_value.get("width").and_then(get("widthType")).and_then(as_str)
.unwrap_or("")`. -/
def tableWidthTypeRead (p : TableProperty) : String :=
  ((((p.toJson.get "width").bind (fun j => j.get "widthType")).bind Json.asStr)).getD ""

/-- `property_value.get("justification").and_then(as_str).unwrap_or("")`. -/
def tableJustificationRead (p : TableProperty) : String :=
  ((p.toJson.get "justification").bind Json.asStr).getD ""

/-- `property_value.get("borders").and_then(get(pos)).and_then(as_str)
.map(Str).unwrap_or(Null)`. -/
def tableBorderRead (p : TableProperty) (pos : String) : Value :=
  (((((p.toJson.get "borders").bind (fun j => j.get pos)).bind Json.asStr)).map Value.str).getD .null

def cellWidthRead (p : TableCellProperty) : Nat :=
  (((((p.toJson.get "width").bind (fun j => j.get "width")).bind Json.asU64)).map natAsU32).getD 0

def cellWidthTypeRead (p : TableCellProperty) : String :=
  ((((p.toJson.get "width").bind (fun j => j.get "widthType")).bind Json.asStr)).getD ""

def cellBorderRead (p : TableCellProperty) (pos : String) : Value :=
  (((((p.toJson.get "borders").bind (fun j => j.get pos)).bind Json.asStr)).map Value.str).getD .null

/-! ## Scan projections -/

/-- The `"tables"` row built per table child in `scan_data` (mod.rs lines
182-310 and tables.rs lines 163-291 contain the same body).  Note the row
carries `row_number` as `Value::I32` and has no `json_content` entry, exactly
as in the source. -/
def tableScanRow (t : Table) : Key × DataRow :=
  let hash_hex := tableHash t
  let row_number := t.rows.length
  let column_number :=
    ((t.rows.get? 0).map (fun item => match item with
      | .tableRow table_row => table_row.cells.length)).getD 0
  (Key.str hash_hex, DataRow.map [
    ("hash", .str hash_hex),
    ("row_number", .i32 (natAsI32 row_number)),
    ("column_number", .u32 (natAsU32 column_number)),
    ("width", .u32 (tableWidthRead t.property)),
    ("width_type", .str (tableWidthTypeRead t.property)),
    ("justification", .str (tableJustificationRead t.property)),
    ("borders_top", tableBorderRead t.property "top"),
    ("borders_left", tableBorderRead t.property "left"),
    ("borders_bottom", tableBorderRead t.property "bottom"),
    ("borders_right", tableBorderRead t.property "right"),
    ("borders_inside_h", tableBorderRead t.property "insideH"),
    ("borders_inside_v", tableBorderRead t.property "insideV")])

def tablesScanRows (d : Document) : List (Except StorageError (Key × DataRow)) :=
  d.children.filterMap fun doc_child => match doc_child with
    | .table t => some (.ok (tableScanRow t))
    | _ => none

/-- The first `flat_map` of the content concatenation: a paragraph's
children, or nothing (`[].iter()`) for non-paragraph cell content. -/
def paraChildren : TableCellContent → List ParagraphChild
  | .paragraph paragraph => paragraph.children
  | _ => []

/-- The second `flat_map`: a run's children, or nothing for non-run
paragraph children. -/
def runChildrenOf : ParagraphChild → List RunChild
  | .run run => run.children
  | _ => []

/-- The `map`: a text run's text, the empty string otherwise. -/
def textOfRunChild : RunChild → String
  | .text run_text => run_text
  | _ => ""

/-- The cell text concatenation in `Cell::scan_data`: text runs of every
paragraph, non-text children mapped to `""`, joined with no separator. -/
def cellContent (c : TableCell) : String :=
  String.join (((c.children.flatMap paraChildren).flatMap runChildrenOf).map textOfRunChild)

/-- The `"cell"` row built per cell in `Cell::scan_data`.  As in the source,
there is no `json_content` entry. -/
def cellScanRow (table_hash_hex : String) (c : TableCell) : Key × DataRow :=
  let content := cellContent c
  let cell_hash_hex := cellHash c
  (Key.str cell_hash_hex, DataRow.map [
    ("hash", .str cell_hash_hex),
    ("table_hash", .str table_hash_hex),
    ("content", .str content),
    ("width", .u32 (cellWidthRead c.property)),
    ("width_type", .str (cellWidthTypeRead c.property)),
    ("borders_top", cellBorderRead c.property "top"),
    ("borders_left", cellBorderRead c.property "left"),
    ("borders_bottom", cellBorderRead c.property "bottom"),
    ("borders_right", cellBorderRead c.property "right"),
    ("borders_inside_h", cellBorderRead c.property "insideH"),
    ("borders_inside_v", cellBorderRead c.property "insideV")])

/-- The cells of one table in row-major document order. -/
def cellsOfTable (t : Table) : List TableCell :=
  t.rows.flatMap fun row => match row with
    | .tableRow table_row => table_row.cells.map fun cc => match cc with
      | .tableCell c => c

def cellScanRows (d : Document) : List (Except StorageError (Key × DataRow)) :=
  d.children.flatMap fun doc_child => match doc_child with
    | .table t => (cellsOfTable t).map (fun c => .ok (cellScanRow (tableHash t) c))
    | _ => []

/-- The top-level tables of a document, in document order. -/
def tablesOf (d : Document) : List Table :=
  d.children.filterMap fun c => match c with
    | .table t => some t
    | _ => none

/-- All cells of a document, in document order. -/
def cellsOf (d : Document) : List TableCell :=
  d.children.flatMap fun c => match c with
    | .table t => cellsOfTable t
    | _ => []

/-! ## Schema catalogs -/

/-- The `"tables"` schema (identical in mod.rs `fetch_all_schemas` and
`Tables::fetch_all_schemas`). -/
def tablesSchemaDef : Schema :=
  { table_name := "tables",
    column_defs := some [
      { name := "hash", dataType := .text, nullable := false, comment := some "表格" },
      { name := "row_number", dataType := .uint32, nullable := false, comment := some "行数" },
      { name := "column_number", dataType := .uint32, nullable := false, comment := some "列数" },
      { name := "width", dataType := .uint32, nullable := true, comment := some "表格宽度" },
      { name := "width_type", dataType := .text, nullable := true, comment := some "表格宽度类型" },
      { name := "justification", dataType := .text, nullable := true, comment := some "对齐方式" },
      { name := "borders_top", dataType := .text, nullable := true, comment := some "上边框" },
      { name := "borders_left", dataType := .text, nullable := true, comment := some "左边框" },
      { name := "borders_bottom", dataType := .text, nullable := true, comment := some "底边框" },
      { name := "borders_right", dataType := .text, nullable := true, comment := some "右边框" },
      { name := "borders_inside_h", dataType := .text, nullable := true, comment := some "水平内部边框" },
      { name := "borders_inside_v", dataType := .text, nullable := true, comment := some "垂直内部边框" },
      { name := "json_content", dataType := .text, nullable := false, comment := some "表格的json形式" }] }

/-- The `"cell"` schema from `Cell::fetch_all_schemas`. -/
def cellSchemaDef : Schema :=
  { table_name := "cell",
    column_defs := some [
      { name := "hash", dataType := .text, nullable := false, comment := some "cell的哈希" },
      { name := "table_hash", dataType := .text, nullable := false, comment := some "表格的哈希" },
      { name := "content", dataType := .text, nullable := true, comment := some "cell内容" },
      { name := "width", dataType := .uint32, nullable := true, comment := some "表格宽度" },
      { name := "width_type", dataType := .text, nullable := true, comment := some "表格宽度类型" },
      { name := "borders_top", dataType := .text, nullable := true, comment := some "上边框" },
      { name := "borders_left", dataType := .text, nullable := true, comment := some "左边框" },
      { name := "borders_bottom", dataType := .text, nullable := true, comment := some "底边框" },
      { name := "borders_right", dataType := .text, nullable := true, comment := some "右边框" },
      { name := "borders_inside_h", dataType := .text, nullable := true, comment := some "水平内部边框" },
      { name := "borders_inside_v", dataType := .text, nullable := true, comment := some "垂直内部边框" },
      { name := "json_content", dataType := .text, nullable := false, comment := some "cell的json形式" }] }

/-! ## Mutation application (`insert_data` bodies)

The Rust loops mutate the document in place; each table (resp. cell) child is
transformed independently of its siblings, with its content hash recomputed
once when the walk reaches it and compared against every batch row's key, so
the loops are rendered as per-child transformation functions mapped over the
children. -/

/-- One `kv` application from mod.rs `DocxDb::insert_data` (width,
width_type, justification; the three `if kv.0 == ...` blocks are sequential
and mutually exclusive). -/
def docxApplyKv (t : Table) (k : String) (v : Value) : Table :=
  let t :=
    if k = "width" then
      match v with
      | .u32 width =>
        let property_value := t.property.toJson
        let _pre_width :=
          ((((property_value.get "width").bind (fun j => j.get "width")).bind Json.asU64)).getD 0
        let pre_width_type :=
          (((((property_value.get "width").bind (fun j => j.get "widthType")).bind
            Json.asStr)).bind WidthType.fromStr).getD .unsupported
        { t with property := t.property.setWidth width pre_width_type }
      | _ => t
    else t
  let t :=
    if k = "width_type" then
      match v with
      | .str width_type =>
        let property_value := t.property.toJson
        let pre_width :=
          ((((property_value.get "width").bind (fun j => j.get "width")).bind Json.asU64)).getD 0
        let pre_width_type := (WidthType.fromStr width_type).getD .auto
        { t with property := t.property.setWidth pre_width pre_width_type }
      | _ => t
    else t
  let t :=
    if k = "justification" then
      match v with
      | .str prop_value =>
        match TableAlignmentType.fromStr prop_value with
        | some align => { t with property := t.property.align align }
        | none => t
      | _ => t
    else t
  t

/-- The per-table body of mod.rs `DocxDb::insert_data`: hash once, then apply
every batch row whose key equals that hash. -/
def docxApplyTable (t0 : Table) (rows : List (Key × DataRow)) : Table :=
  rows.foldl (fun t row =>
    if row.fst = Key.str (tableHash t0) then
      match row.snd with
      | .map kvs => kvs.foldl (fun t kv => docxApplyKv t kv.fst kv.snd) t
      | _ => t
    else t) t0

/-- The border-update block of `Tables::insert_data` (the source inlines this
block once per border column, changing only the `TableBorderPosition`):
parse the text as JSON, build a border from the present fields, merge it. -/
def tablesBorderApply (property : TableProperty) (border_value : String)
    (pos : TableBorderPosition) : TableProperty :=
  let value := (serdeFromStr border_value).getD .null
  let table_border := TableBorder.new pos
  let table_border :=
    match (value.get "color").bind Json.asStr with
    | some color => table_border.setColor color
    | none => table_border
  let table_border :=
    match (value.get "size").bind Json.asU64 with
    | some size => table_border.setSize size
    | none => table_border
  let table_border :=
    match ((value.get "borderType").bind Json.asStr).bind BorderType.fromStr with
    | some border_type => table_border.setBorderType border_type
    | none => table_border
  property.set_border table_border

/-- The six border columns of the `"tables"` table with their positions. -/
def tablesBorderColumns : List (String × TableBorderPosition) :=
  [("borders_top", .top), ("borders_left", .left), ("borders_bottom", .bottom),
   ("borders_right", .right), ("borders_inside_h", .insideH), ("borders_inside_v", .insideV)]

/-- One `kv` application from `Tables::insert_data`: the three property
branches of `docxApplyKv` plus the six border branches. -/
def tablesApplyKv (t : Table) (k : String) (v : Value) : Table :=
  let t := docxApplyKv t k v
  tablesBorderColumns.foldl (fun t np =>
    if k = np.fst then
      match v with
      | .str border_value =>
        { t with property := tablesBorderApply t.property border_value np.snd }
      | _ => t
    else t) t

def tablesApplyTable (t0 : Table) (rows : List (Key × DataRow)) : Table :=
  rows.foldl (fun t row =>
    if row.fst = Key.str (tableHash t0) then
      match row.snd with
      | .map kvs => kvs.foldl (fun t kv => tablesApplyKv t kv.fst kv.snd) t
      | _ => t
    else t) t0

/-! ## The `DocxDb` adapter (mod.rs) -/

namespace DocxDb

/-- mod.rs `fetch_all_schemas`: only the `"tables"` schema. -/
def fetch_all_schemas : Except StorageError (List Schema) :=
  .ok [tablesSchemaDef]

/-- mod.rs `scan_data`: the body never consults `table_name`; every call
projects the top-level tables. -/
def scan_data (d : Document) (_table_name : String) :
    Except StorageError (List (Except StorageError (Key × DataRow))) :=
  .ok (tablesScanRows d)

/-- mod.rs `fetch_data`: `Ok(None)` for any name other than `"tables"`,
otherwise a linear search of the scan for the key (error items skipped). -/
def fetch_data (d : Document) (table_name : String) (key : Key) :
    Except StorageError (Option DataRow) :=
  if table_name ≠ "tables" then .ok none
  else
    match scan_data d table_name with
    | .ok rows =>
      .ok (rows.findSome? fun row_result => match row_result with
        | .ok row => if row.fst = key then some row.snd else none
        | .error _ => none)
    | .error _ => .ok none

/-- The per-child action of mod.rs `insert_data`: table children are updated
in place, all other children are left alone. -/
def applyDocChild (rows : List (Key × DataRow)) : DocumentChild → DocumentChild
  | .table t => .table (docxApplyTable t rows)
  | c => c

/-- mod.rs `insert_data`: no-op success for any name other than `"tables"`,
otherwise apply matching batch rows to each table child. -/
def insert_data (d : Document) (table_name : String) (_rows : List (Key × DataRow)) :
    Except StorageError Unit × Document :=
  if table_name ≠ "tables" then (.ok (), d)
  else (.ok (), ⟨d.children.map (applyDocChild _rows)⟩)

/-- mod.rs `insert_schema`. -/
def insert_schema (d : Document) (_schema : Schema) : Except StorageError Unit × Document :=
  (.error (.storageMsg "[Storage] StoreMut::insert_schema is not supported"), d)

/-- mod.rs `delete_schema`. -/
def delete_schema (d : Document) (_table_name : String) : Except StorageError Unit × Document :=
  (.error (.storageMsg "[Storage] StoreMut::delete_schema is not supported"), d)

/-- mod.rs `append_data`. -/
def append_data (d : Document) (_table_name : String) (_rows : List DataRow) :
    Except StorageError Unit × Document :=
  (.error (.storageMsg "[Storage] StoreMut::append_data is not supported"), d)

/-- mod.rs `delete_data`: always an error, document untouched. -/
def delete_data (d : Document) (_table_name : String) (_keys : List Key) :
    Except StorageError Unit × Document :=
  (.error (.storageMsg "[Storage] StoreMut::delete_data is not supported"), d)

end DocxDb

/-! ## The `Tables` component (tables.rs) -/

namespace Tables

def table_name : String := "tables"

def fetch_all_schemas : List Schema := [tablesSchemaDef]

/-- tables.rs `scan_data` (same body as mod.rs `scan_data`). -/
def scan_data (d : Document) :
    Except StorageError (List (Except StorageError (Key × DataRow))) :=
  .ok (tablesScanRows d)

/-- tables.rs `fetch_data`: linear search of the scan. -/
def fetch_data (d : Document) (key : Key) : Except StorageError (Option DataRow) :=
  match scan_data d with
  | .ok rows =>
    .ok (rows.findSome? fun row_result => match row_result with
      | .ok row => if row.fst = key then some row.snd else none
      | .error _ => none)
  | .error _ => .ok none

/-- The per-child action of tables.rs `insert_data`. -/
def applyDocChild (rows : List (Key × DataRow)) : DocumentChild → DocumentChild
  | .table t => .table (tablesApplyTable t rows)
  | c => c

/-- tables.rs `insert_data`. -/
def insert_data (d : Document) (_rows : List (Key × DataRow)) :
    Except StorageError Unit × Document :=
  (.ok (), ⟨d.children.map (applyDocChild _rows)⟩)

end Tables

/-! ## The `Cell` component (cell.rs) -/

namespace Cell

def table_name : String := "cell"

def fetch_all_schemas : List Schema := [cellSchemaDef]

/-- cell.rs `scan_data`. -/
def scan_data (d : Document) :
    Except StorageError (List (Except StorageError (Key × DataRow))) :=
  .ok (cellScanRows d)

/-- cell.rs `fetch_data`: linear search of the scan. -/
def fetch_data (d : Document) (key : Key) : Except StorageError (Option DataRow) :=
  match scan_data d with
  | .ok rows =>
    .ok (rows.findSome? fun row_result => match row_result with
      | .ok row => if row.fst = key then some row.snd else none
      | .error _ => none)
  | .error _ => .ok none

/-- cell.rs `Cell::set_border`: parse the text as JSON, build a cell border
at the given position from the present fields, merge it into the bag. -/
def set_border (property : TableCellProperty) (border_value : String)
    (border_position : TableCellBorderPosition) : TableCellProperty :=
  let value := (serdeFromStr border_value).getD .null
  let table_border := TableCellBorder.new border_position
  let table_border :=
    match (value.get "color").bind Json.asStr with
    | some color => table_border.setColor color
    | none => table_border
  let table_border :=
    match (value.get "size").bind Json.asU64 with
    | some size => table_border.setSize size
    | none => table_border
  let table_border :=
    match ((value.get "borderType").bind Json.asStr).bind BorderType.fromStr with
    | some border_type => table_border.setBorderType border_type
    | none => table_border
  property.set_border table_border

/-- The six border columns of the `"cell"` table with their positions. -/
def borderColumns : List (String × TableCellBorderPosition) :=
  [("borders_top", .top), ("borders_left", .left), ("borders_bottom", .bottom),
   ("borders_right", .right), ("borders_inside_h", .insideH), ("borders_inside_v", .insideV)]

/-- One `kv` application from `Cell::insert_data`: width, width_type and the
six border branches (cells have no justification branch). -/
def applyKv (c : TableCell) (k : String) (v : Value) : TableCell :=
  let c :=
    if k = "width" then
      match v with
      | .u32 width =>
        let property_value := c.property.toJson
        let _pre_width :=
          ((((property_value.get "width").bind (fun j => j.get "width")).bind Json.asU64)).getD 0
        let pre_width_type :=
          (((((property_value.get "width").bind (fun j => j.get "widthType")).bind
            Json.asStr)).bind WidthType.fromStr).getD .unsupported
        { c with property := c.property.setWidth width pre_width_type }
      | _ => c
    else c
  let c :=
    if k = "width_type" then
      match v with
      | .str width_type =>
        let property_value := c.property.toJson
        let pre_width :=
          ((((property_value.get "width").bind (fun j => j.get "width")).bind Json.asU64)).getD 0
        let pre_width_type := (WidthType.fromStr width_type).getD .auto
        { c with property := c.property.setWidth pre_width pre_width_type }
      | _ => c
    else c
  borderColumns.foldl (fun c np =>
    if k = np.fst then
      match v with
      | .str border_value =>
        { c with property := set_border c.property border_value np.snd }
      | _ => c
    else c) c

/-- The per-cell body of `Cell::insert_data`: hash the cell once, then apply
every batch row whose key equals that hash. -/
def applyCell (c0 : TableCell) (rows : List (Key × DataRow)) : TableCell :=
  rows.foldl (fun c row =>
    if row.fst = Key.str (cellHash c0) then
      match row.snd with
      | .map kvs => kvs.foldl (fun c kv => applyKv c kv.fst kv.snd) c
      | _ => c
    else c) c0

/-- The per-row-child action of cell.rs `insert_data`. -/
def applyRowChild (rows : List (Key × DataRow)) : TableRowChild → TableRowChild
  | .tableCell table_cell => .tableCell (applyCell table_cell rows)

/-- The per-table-child action of cell.rs `insert_data`: each row's cells are
updated in place. -/
def applyTableChild (rows : List (Key × DataRow)) : TableChild → TableChild
  | .tableRow table_row =>
    .tableRow { table_row with cells := table_row.cells.map (applyRowChild rows) }

/-- The per-document-child action of cell.rs `insert_data`: each table's rows
are walked, everything else is left alone. -/
def applyDocChild (rows : List (Key × DataRow)) : DocumentChild → DocumentChild
  | .table t => .table { t with rows := t.rows.map (applyTableChild rows) }
  | c => c

/-- cell.rs `insert_data`: walk every cell of every table. -/
def insert_data (d : Document) (_rows : List (Key × DataRow)) :
    Except StorageError Unit × Document :=
  (.ok (), ⟨d.children.map (applyDocChild _rows)⟩)

end Cell

/-! ## Statement helpers -/

/-- Read one column of a `DataRow` (maps only, as produced by the scans). -/
def rowLookup (col : String) : DataRow → Option Value
  | .map kvs => kvs.lookup col
  | .vec _ => none

/-- Read one column of a scan item (`Ok` rows only). -/
def rowColProj (col : String) : Except StorageError (Key × DataRow) → Option Value
  | .ok row => rowLookup col row.snd
  | .error _ => none

/-- Whether a scan item is an `Ok` pair. -/
def exceptIsOk : Except StorageError (Key × DataRow) → Bool
  | .ok _ => true
  | .error _ => false

/-- Modelled from the spec: the content column is "the text content of every
text run in every paragraph (ignoring non-text run children, no separator)".
Used only to compare the source's `cellContent` against the spec's wording. -/
def paragraphOf : TableCellContent → Option Paragraph
  | .paragraph p => some p
  | _ => none

def runOf : ParagraphChild → Option Run
  | .run r => some r
  | _ => none

def textOf : RunChild → Option String
  | .text s => some s
  | _ => none

def specCellContent (c : TableCell) : String :=
  String.join ((c.children.filterMap paragraphOf).flatMap fun p =>
    (p.children.filterMap runOf).flatMap fun r =>
    r.children.filterMap textOf)

/-- A style bag with nothing set. -/
def emptyTableProperty : TableProperty :=
  { width := none, justification := none,
    borders := { top := none, left := none, bottom := none, right := none,
                 insideH := none, insideV := none } }

def emptyCellProperty : TableCellProperty :=
  { width := none, borders := none }

def emptyCell : TableCell :=
  { children := [], property := emptyCellProperty }

def emptyTable : Table :=
  { rows := [], property := emptyTableProperty }

/-- A document with a single (empty) top-level table. -/
def oneTableDoc : Document := ⟨[.table emptyTable]⟩

/-- A cell holding one paragraph with the text runs `"foo"` and `"bar"`. -/
def fooBarCell : TableCell :=
  { children := [.paragraph { children :=
      [.run { children := [.text "foo"] }, .run { children := [.text "bar"] }] }],
    property := emptyCellProperty }

/-- A document whose only table holds `fooBarCell` in a 1×1 grid. -/
def fooBarDoc : Document :=
  ⟨[.table { rows := [.tableRow { cells := [.tableCell fooBarCell] }],
             property := emptyTableProperty }]⟩

/-- Three empty cells. -/
def threeCells : TableRow :=
  { cells := [.tableCell emptyCell, .tableCell emptyCell, .tableCell emptyCell] }

/-- A row of three empty cells. -/
def rowOfThree : TableChild := .tableRow threeCells

/-- A document with one paragraph child and one 2×3 table. -/
def twoByThreeDoc : Document :=
  ⟨[.paragraph, .table { rows := [rowOfThree, rowOfThree], property := emptyTableProperty }]⟩

/-! ## Structural lemmas about the scans -/

theorem tablesScanRows_eq (d : Document) :
    tablesScanRows d = (tablesOf d).map (fun t => .ok (tableScanRow t)) := by
  cases d with
  | mk children =>
    induction children with
    | nil => rfl
    | cons c rest ih =>
      cases c with
      | table t =>
        simp only [tablesScanRows, tablesOf, List.filterMap_cons] at ih ⊢
        simp [ih]
      | paragraph =>
        simp only [tablesScanRows, tablesOf, List.filterMap_cons] at ih ⊢
        simp [ih]

theorem cellScanRows_eq (d : Document) :
    cellScanRows d = (tablesOf d).flatMap
      (fun t => (cellsOfTable t).map (fun c => .ok (cellScanRow (tableHash t) c))) := by
  cases d with
  | mk children =>
    induction children with
    | nil => rfl
    | cons c rest ih =>
      cases c with
      | table t =>
        simp only [cellScanRows, tablesOf, List.filterMap_cons, List.flatMap_cons] at ih ⊢
        simp [ih]
      | paragraph =>
        simp only [cellScanRows, tablesOf, List.filterMap_cons, List.flatMap_cons] at ih ⊢
        simp [ih]

theorem cellsOf_eq (d : Document) :
    cellsOf d = (tablesOf d).flatMap cellsOfTable := by
  cases d with
  | mk children =>
    induction children with
    | nil => rfl
    | cons c rest ih =>
      cases c with
      | table t =>
        simp only [cellsOf, tablesOf, List.filterMap_cons, List.flatMap_cons] at ih ⊢
        simp [ih]
      | paragraph =>
        simp only [cellsOf, tablesOf, List.filterMap_cons, List.flatMap_cons] at ih ⊢
        simp [ih]

theorem tablesOf_map_docx (l : List DocumentChild) (rows : List (Key × DataRow)) :
    tablesOf ⟨l.map (DocxDb.applyDocChild rows)⟩ =
      (tablesOf ⟨l⟩).map (fun t => docxApplyTable t rows) := by
  induction l with
  | nil => rfl
  | cons c rest ih =>
    cases c with
    | table t =>
      simp only [tablesOf, List.map_cons, DocxDb.applyDocChild, List.filterMap_cons] at ih ⊢
      simp [ih]
    | paragraph =>
      simp only [tablesOf, List.map_cons, DocxDb.applyDocChild, List.filterMap_cons] at ih ⊢
      simp [ih]

theorem tablesOf_map_tables (l : List DocumentChild) (rows : List (Key × DataRow)) :
    tablesOf ⟨l.map (Tables.applyDocChild rows)⟩ =
      (tablesOf ⟨l⟩).map (fun t => tablesApplyTable t rows) := by
  induction l with
  | nil => rfl
  | cons c rest ih =>
    cases c with
    | table t =>
      simp only [tablesOf, List.map_cons, Tables.applyDocChild, List.filterMap_cons] at ih ⊢
      simp [ih]
    | paragraph =>
      simp only [tablesOf, List.map_cons, Tables.applyDocChild, List.filterMap_cons] at ih ⊢
      simp [ih]

theorem tablesOf_map_cell (l : List DocumentChild) (rows : List (Key × DataRow)) :
    tablesOf ⟨l.map (Cell.applyDocChild rows)⟩ =
      (tablesOf ⟨l⟩).map (fun t => { t with rows := t.rows.map (Cell.applyTableChild rows) }) := by
  induction l with
  | nil => rfl
  | cons c rest ih =>
    cases c with
    | table t =>
      simp only [tablesOf, List.map_cons, Cell.applyDocChild, List.filterMap_cons] at ih ⊢
      simp [ih]
    | paragraph =>
      simp only [tablesOf, List.map_cons, Cell.applyDocChild, List.filterMap_cons] at ih ⊢
      simp [ih]

theorem cellsOfTable_cellApply (t : Table) (rows : List (Key × DataRow)) :
    cellsOfTable { t with rows := t.rows.map (Cell.applyTableChild rows) } =
      (cellsOfTable t).map (fun c => Cell.applyCell c rows) := by
  cases t with
  | mk trows property =>
    induction trows with
    | nil => rfl
    | cons r rest ih =>
      cases r with
      | tableRow tr =>
        simp only [cellsOfTable, List.map_cons, Cell.applyTableChild,
          List.flatMap_cons] at ih ⊢
        simp only [List.map_append, ih]
        congr 1
        induction tr.cells with
        | nil => rfl
        | cons cc crest cih =>
          cases cc with
          | tableCell c =>
            simp [Cell.applyRowChild, cih]

/-! ## Border columns always project `Null`

The scans read `borders.<pos>` with `as_str`; the serde serialization of a
border slot is `null` or an object, never a string, so the six border columns
always project `Value.null`. -/

theorem asStr_optionToJson_tableBorder (o : Option TableBorder) :
    (optionToJson TableBorder.toJson o).asStr = none := by
  cases o <;> rfl

theorem asStr_optionToJson_cellBorder (o : Option TableCellBorder) :
    (optionToJson TableCellBorder.toJson o).asStr = none := by
  cases o <;> rfl

theorem lookup_bind_asStr_none (pos : String) (l : List (String × Json))
    (h : ∀ kv ∈ l, Json.asStr kv.snd = none) :
    (List.lookup pos l).bind Json.asStr = none := by
  induction l with
  | nil => rfl
  | cons kv rest ih =>
    cases kv with
    | mk k v =>
      cases hk : (pos == k) with
      | true =>
        have := h (k, v) (by simp)
        simp [List.lookup, hk, this]
      | false =>
        have := ih (fun kv hkv => h kv (by simp [hkv]))
        simp [List.lookup, hk, this]

theorem tableBorderRead_null (p : TableProperty) (pos : String) :
    tableBorderRead p pos = .null := by
  have h1 : p.toJson.get "borders" = some p.borders.toJson := rfl
  have h2 : (List.lookup pos [("top", optionToJson TableBorder.toJson p.borders.top),
      ("left", optionToJson TableBorder.toJson p.borders.left),
      ("bottom", optionToJson TableBorder.toJson p.borders.bottom),
      ("right", optionToJson TableBorder.toJson p.borders.right),
      ("insideH", optionToJson TableBorder.toJson p.borders.insideH),
      ("insideV", optionToJson TableBorder.toJson p.borders.insideV)]).bind Json.asStr = none := by
    apply lookup_bind_asStr_none
    intro kv hkv
    fin_cases hkv <;> apply asStr_optionToJson_tableBorder
  simp only [tableBorderRead, h1, Option.bind_some]
  simp only [TableBorders.toJson, Json.get] at h2 ⊢
  simp [h2]

theorem cellBorderRead_null (p : TableCellProperty) (pos : String) :
    cellBorderRead p pos = .null := by
  have h1 : p.toJson.get "borders" = some (optionToJson TableCellBorders.toJson p.borders) := rfl
  cases hb : p.borders with
  | none =>
    simp only [cellBorderRead, h1, hb, optionToJson, Option.bind_some]
    rfl
  | some bs =>
    have h2 : (List.lookup pos [("top", optionToJson TableCellBorder.toJson bs.top),
        ("left", optionToJson TableCellBorder.toJson bs.left),
        ("bottom", optionToJson TableCellBorder.toJson bs.bottom),
        ("right", optionToJson TableCellBorder.toJson bs.right),
        ("insideH", optionToJson TableCellBorder.toJson bs.insideH),
        ("insideV", optionToJson TableCellBorder.toJson bs.insideV)]).bind Json.asStr = none := by
      apply lookup_bind_asStr_none
      intro kv hkv
      fin_cases hkv <;> apply asStr_optionToJson_cellBorder
    simp only [cellBorderRead, h1, hb, Option.bind_some, optionToJson]
    simp only [TableCellBorders.toJson, Json.get] at h2 ⊢
    simp [h2]

/-! ## No-op lemmas: batches whose keys match no element leave it unchanged -/

theorem docxApplyTable_noop (t : Table) (rows : List (Key × DataRow))
    (h : ∀ row ∈ rows, row.fst ≠ Key.str (tableHash t)) :
    docxApplyTable t rows = t := by
  unfold docxApplyTable
  induction rows with
  | nil => rfl
  | cons r rest ih =>
    simp only [List.foldl_cons]
    rw [if_neg (h r (by simp))]
    exact ih (fun row hr => h row (by simp [hr]))

theorem tablesApplyTable_noop (t : Table) (rows : List (Key × DataRow))
    (h : ∀ row ∈ rows, row.fst ≠ Key.str (tableHash t)) :
    tablesApplyTable t rows = t := by
  unfold tablesApplyTable
  induction rows with
  | nil => rfl
  | cons r rest ih =>
    simp only [List.foldl_cons]
    rw [if_neg (h r (by simp))]
    exact ih (fun row hr => h row (by simp [hr]))

theorem applyCell_noop (c : TableCell) (rows : List (Key × DataRow))
    (h : ∀ row ∈ rows, row.fst ≠ Key.str (cellHash c)) :
    Cell.applyCell c rows = c := by
  unfold Cell.applyCell
  induction rows with
  | nil => rfl
  | cons r rest ih =>
    simp only [List.foldl_cons]
    rw [if_neg (h r (by simp))]
    exact ih (fun row hr => h row (by simp [hr]))

theorem docx_children_map_noop (l : List DocumentChild) (rows : List (Key × DataRow))
    (h : ∀ t ∈ tablesOf ⟨l⟩, ∀ row ∈ rows, row.fst ≠ Key.str (tableHash t)) :
    l.map (DocxDb.applyDocChild rows) = l := by
  induction l with
  | nil => rfl
  | cons c rest ih =>
    cases c with
    | table t =>
      simp only [List.map_cons, DocxDb.applyDocChild]
      rw [docxApplyTable_noop t rows (h t (by simp [tablesOf]))]
      rw [ih (fun t' ht' => h t' (by simp [tablesOf] at ht' ⊢; exact Or.inr ht'))]
    | paragraph =>
      simp only [List.map_cons, DocxDb.applyDocChild]
      rw [ih (fun t' ht' => h t' (by simp [tablesOf] at ht' ⊢; exact ht'))]

theorem tables_children_map_noop (l : List DocumentChild) (rows : List (Key × DataRow))
    (h : ∀ t ∈ tablesOf ⟨l⟩, ∀ row ∈ rows, row.fst ≠ Key.str (tableHash t)) :
    l.map (Tables.applyDocChild rows) = l := by
  induction l with
  | nil => rfl
  | cons c rest ih =>
    cases c with
    | table t =>
      simp only [List.map_cons, Tables.applyDocChild]
      rw [tablesApplyTable_noop t rows (h t (by simp [tablesOf]))]
      rw [ih (fun t' ht' => h t' (by simp [tablesOf] at ht' ⊢; exact Or.inr ht'))]
    | paragraph =>
      simp only [List.map_cons, Tables.applyDocChild]
      rw [ih (fun t' ht' => h t' (by simp [tablesOf] at ht' ⊢; exact ht'))]

theorem cells_map_noop (cells : List TableRowChild) (rows : List (Key × DataRow))
    (h : ∀ c, TableRowChild.tableCell c ∈ cells → ∀ row ∈ rows, row.fst ≠ Key.str (cellHash c)) :
    cells.map (Cell.applyRowChild rows) = cells := by
  induction cells with
  | nil => rfl
  | cons cc rest ih =>
    cases cc with
    | tableCell c =>
      simp only [List.map_cons, Cell.applyRowChild]
      rw [applyCell_noop c rows (h c (by simp))]
      rw [ih (fun c' hc' => h c' (by simp [hc']))]

theorem trows_map_noop (trows : List TableChild) (p : TableProperty)
    (rows : List (Key × DataRow))
    (h : ∀ c ∈ cellsOfTable ⟨trows, p⟩, ∀ row ∈ rows, row.fst ≠ Key.str (cellHash c)) :
    trows.map (Cell.applyTableChild rows) = trows := by
  induction trows with
  | nil => rfl
  | cons tc rest ih =>
    cases tc with
    | tableRow tr =>
      simp only [List.map_cons, Cell.applyTableChild]
      rw [cells_map_noop tr.cells rows (fun c hc => h c (by
        simp [cellsOfTable, List.flatMap_cons]
        exact Or.inl ⟨.tableCell c, hc, rfl⟩))]
      rw [ih (fun c hc => h c (by
        simp [cellsOfTable, List.flatMap_cons] at hc ⊢
        exact Or.inr hc))]

theorem cell_children_map_noop (l : List DocumentChild) (rows : List (Key × DataRow))
    (h : ∀ c ∈ cellsOf ⟨l⟩, ∀ row ∈ rows, row.fst ≠ Key.str (cellHash c)) :
    l.map (Cell.applyDocChild rows) = l := by
  induction l with
  | nil => rfl
  | cons dc rest ih =>
    cases dc with
    | table t =>
      simp only [List.map_cons, Cell.applyDocChild]
      cases t with
      | mk trows p =>
        rw [trows_map_noop trows p rows (fun c hc => h c (by
          simp [cellsOf, List.flatMap_cons]
          exact Or.inl hc))]
        rw [ih (fun c hc => h c (by
          simp [cellsOf, List.flatMap_cons] at hc ⊢
          exact Or.inr hc))]
    | paragraph =>
      simp only [List.map_cons, Cell.applyDocChild]
      rw [ih (fun c hc => h c (by simp [cellsOf, List.flatMap_cons] at hc ⊢; exact hc))]

/-! ## Scan items are always `Ok` -/

theorem tablesScanRows_all_ok (d : Document) :
    (tablesScanRows d).all exceptIsOk = true := by
  rw [tablesScanRows_eq]
  simp [List.all_eq_true, exceptIsOk]

theorem cellScanRows_all_ok (d : Document) :
    (cellScanRows d).all exceptIsOk = true := by
  rw [cellScanRows_eq]
  simp only [List.all_eq_true]
  intro x hx
  simp only [List.mem_flatMap, List.mem_map] at hx
  obtain ⟨t, -, c, -, rfl⟩ := hx
  rfl

/-! ## Claim theorems -/

/-- Claim C6: for every document, table name and list of keys, the delete
operation returns an Unsupported (storage-message) error and leaves the
document completely unchanged. -/
theorem c6_delete_unsupported (d : Document) (table_name : String) (keys : List Key) :
    DocxDb.delete_data d table_name keys =
      (.error (.storageMsg "[Storage] StoreMut::delete_data is not supported"), d) :=
  rfl

/-- Claim C9: an update batch none of whose keys equals the recomputed
content hash of any live table or cell returns ok and leaves the document
completely unchanged, for all three adapter implementations; a non-matching
key is never reported as an error. -/
theorem c9_nonmatching_update_noop (d : Document) (table_name : String)
    (rows : List (Key × DataRow))
    (hT : ∀ row ∈ rows, ∀ t ∈ tablesOf d, row.fst ≠ Key.str (tableHash t))
    (hC : ∀ row ∈ rows, ∀ c ∈ cellsOf d, row.fst ≠ Key.str (cellHash c)) :
    DocxDb.insert_data d table_name rows = (.ok (), d) ∧
    Tables.insert_data d rows = (.ok (), d) ∧
    Cell.insert_data d rows = (.ok (), d) := by
  cases d with
  | mk children =>
    refine ⟨?_, ?_, ?_⟩
    · by_cases hname : table_name = "tables"
      · subst hname
        simp only [DocxDb.insert_data, ne_eq, not_true_eq_false, if_false, ite_false]
        rw [docx_children_map_noop children rows
          (fun t ht row hr => hT row hr t ht)]
      · simp [DocxDb.insert_data, hname]
    · simp only [Tables.insert_data]
      rw [tables_children_map_noop children rows
        (fun t ht row hr => hT row hr t ht)]
    · simp only [Cell.insert_data]
      rw [cell_children_map_noop children rows
        (fun c hc row hr => hC row hr c hc)]

/-- Witness for C9 at a concrete input: an empty document and a batch keyed
by a key that matches nothing. -/
theorem c9_nonmatching_update_noop_witness :
    (∀ row ∈ ([(Key.str "k", DataRow.map [])] : List (Key × DataRow)),
      ∀ t ∈ tablesOf ⟨[]⟩, row.fst ≠ Key.str (tableHash t)) ∧
    (∀ row ∈ ([(Key.str "k", DataRow.map [])] : List (Key × DataRow)),
      ∀ c ∈ cellsOf ⟨[]⟩, row.fst ≠ Key.str (cellHash c)) ∧
    (DocxDb.insert_data ⟨[]⟩ "x" [(Key.str "k", DataRow.map [])] = (.ok (), ⟨[]⟩) ∧
     Tables.insert_data ⟨[]⟩ [(Key.str "k", DataRow.map [])] = (.ok (), ⟨[]⟩) ∧
     Cell.insert_data ⟨[]⟩ [(Key.str "k", DataRow.map [])] = (.ok (), ⟨[]⟩)) :=
  ⟨by simp [tablesOf], by simp [cellsOf],
   c9_nonmatching_update_noop ⟨[]⟩ "x" [(Key.str "k", DataRow.map [])]
     (by simp [tablesOf]) (by simp [cellsOf])⟩

/-- Claim C10: scan never fails — all three scan implementations return ok on
every document and every item of the returned row sequence is an `Ok` pair
(the `unwrap_or` on serialization failure is absorbed inside the hash
computation and never produces an error item). -/
theorem c10_scan_never_fails (d : Document) (table_name : String) :
    (∃ rs, DocxDb.scan_data d table_name = .ok rs ∧ rs.all exceptIsOk = true) ∧
    (∃ rs, Tables.scan_data d = .ok rs ∧ rs.all exceptIsOk = true) ∧
    (∃ rs, Cell.scan_data d = .ok rs ∧ rs.all exceptIsOk = true) :=
  ⟨⟨tablesScanRows d, rfl, tablesScanRows_all_ok d⟩,
   ⟨tablesScanRows d, rfl, tablesScanRows_all_ok d⟩,
   ⟨cellScanRows d, rfl, cellScanRows_all_ok d⟩⟩

/-- Claim C4 (code bug): `DocxDb::fetch_data` does return `Ok(None)` for an
unknown table name, but `DocxDb::scan_data` never consults its table-name
argument, so scanning the unknown name `"x"` over a document with one table
returns that table's row instead of the empty sequence the claim (and the
code's own gating in `fetch_data`/`insert_data`) expects. -/
theorem c4_unknown_table_scan_bug :
    (∀ (d : Document) (name₁ name₂ : String),
      DocxDb.scan_data d name₁ = DocxDb.scan_data d name₂) ∧
    DocxDb.fetch_data oneTableDoc "x" (Key.str "k") = .ok none ∧
    (DocxDb.scan_data oneTableDoc "x").toOption.map List.length = some 1 :=
  ⟨fun _ _ _ => rfl, rfl, rfl⟩

/-- Claim C7 (code bug): the declared `"tables"` schema marks `json_content`
as non-nullable text, but no scanned row — of either virtual table — carries
a `json_content` column at all. -/
theorem c7_json_content_missing :
    ((tablesSchemaDef.column_defs.getD []).find?
      (fun cd => cd.name == "json_content")).map ColumnDef.nullable = some false ∧
    (∀ t : Table, rowLookup "json_content" (tableScanRow t).snd = none) ∧
    (∀ (th : String) (c : TableCell), rowLookup "json_content" (cellScanRow th c).snd = none) :=
  ⟨rfl, fun _ => rfl, fun _ _ => rfl⟩

/-- Claim C8 (code bug): the declared schema types `row_number` as `Uint32`,
but every scanned `"tables"` row carries `row_number` as `Value::I32` (cast
with Rust `as i32`), numerically equal to the table's row-child count. -/
theorem c8_row_number_i32 :
    ((tablesSchemaDef.column_defs.getD []).find?
      (fun cd => cd.name == "row_number")).map (fun cd => (cd.dataType, cd.nullable)) =
        some (.uint32, false) ∧
    (∀ t : Table, rowLookup "row_number" (tableScanRow t).snd =
      some (.i32 (natAsI32 t.rows.length))) :=
  ⟨rfl, fun _ => rfl⟩

/-! ## Content concatenation -/

theorem join_eq_of_flatten_eq (A B : List String)
    (h : (A.map String.data).flatten = (B.map String.data).flatten) :
    String.join A = String.join B := by
  rw [String.join_eq, String.join_eq, h]

theorem content_runs_flatten (l : List RunChild) :
    ((l.map textOfRunChild).map String.data).flatten =
      ((l.filterMap textOf).map String.data).flatten := by
  induction l with
  | nil => rfl
  | cons rc rest ih =>
    cases rc with
    | text s =>
      simp only [List.map_cons, List.filterMap_cons, textOfRunChild, textOf,
        List.flatten_cons]
      rw [ih]
    | other =>
      simp only [List.map_cons, List.filterMap_cons, textOfRunChild, textOf,
        List.flatten_cons]
      rw [List.nil_append]
      exact ih

theorem content_para_flatten (l : List ParagraphChild) :
    (((l.flatMap runChildrenOf).map textOfRunChild).map String.data).flatten =
      (((l.filterMap runOf).flatMap fun r => r.children.filterMap textOf).map
        String.data).flatten := by
  induction l with
  | nil => rfl
  | cons pc rest ih =>
    cases pc with
    | run r =>
      simp only [List.flatMap_cons, List.filterMap_cons, runChildrenOf, runOf,
        List.map_append, List.flatten_append]
      rw [ih, content_runs_flatten]
    | other =>
      simp only [List.flatMap_cons, List.filterMap_cons, runChildrenOf, runOf]
      rw [List.nil_append]
      exact ih

theorem content_cell_flatten (l : List TableCellContent) :
    ((((l.flatMap paraChildren).flatMap runChildrenOf).map textOfRunChild).map
        String.data).flatten =
      (((l.filterMap paragraphOf).flatMap fun p =>
        (p.children.filterMap runOf).flatMap fun r =>
          r.children.filterMap textOf).map String.data).flatten := by
  induction l with
  | nil => rfl
  | cons cc rest ih =>
    cases cc with
    | paragraph p =>
      simp only [List.flatMap_cons, List.filterMap_cons, paraChildren, paragraphOf,
        List.flatMap_append, List.map_append, List.flatten_append]
      rw [ih, content_para_flatten]
    | table =>
      simp only [List.flatMap_cons, List.filterMap_cons, paraChildren, paragraphOf]
      rw [List.nil_append]
      exact ih

theorem cellContent_eq_spec (c : TableCell) : cellContent c = specCellContent c := by
  unfold cellContent specCellContent
  exact join_eq_of_flatten_eq _ _ (content_cell_flatten c.children)

theorem rowLookup_cellScanRow_content (th : String) (c : TableCell) :
    rowLookup "content" (cellScanRow th c).snd = some (.str (cellContent c)) := rfl

theorem cellScanRows_get_aux (ts : List Table) (j : Nat) (c : TableCell)
    (h : (ts.flatMap cellsOfTable)[j]? = some c) :
    ∃ th, (ts.flatMap fun t => (cellsOfTable t).map
        (fun c => (Except.ok (cellScanRow (tableHash t) c) :
          Except StorageError (Key × DataRow))))[j]? =
      some (.ok (cellScanRow th c)) := by
  induction ts generalizing j with
  | nil => simp at h
  | cons t rest ih =>
    simp only [List.flatMap_cons] at h ⊢
    rw [List.getElem?_append] at h
    by_cases hj : j < (cellsOfTable t).length
    · rw [if_pos hj] at h
      refine ⟨tableHash t, ?_⟩
      rw [List.getElem?_append, if_pos (by simpa using hj), List.getElem?_map, h]
      rfl
    · rw [if_neg hj] at h
      obtain ⟨th, hth⟩ := ih _ h
      refine ⟨th, ?_⟩
      rw [List.getElem?_append, if_neg (by simpa using hj)]
      simpa using hth

theorem cellScanRows_get (d : Document) (j : Nat) (c : TableCell)
    (h : (cellsOf d)[j]? = some c) :
    ∃ th, (cellScanRows d)[j]? = some (.ok (cellScanRow th c)) := by
  rw [cellsOf_eq] at h
  rw [cellScanRows_eq]
  exact cellScanRows_get_aux (tablesOf d) j c h

/-- Claim C5: a cell whose children are one paragraph holding the text runs
`"foo"` and `"bar"` scans with content `"foobar"`, and in general the content
column is the in-order concatenation of the text of every text run in every
paragraph with no separator, non-text children contributing nothing. -/
theorem c5_content_concatenation :
    (∀ (d : Document) (j : Nat) (c : TableCell) (p : Paragraph) (r1 r2 : Run),
      (cellsOf d)[j]? = some c →
      c.children = [.paragraph p] →
      p.children = [.run r1, .run r2] →
      r1.children = [.text "foo"] →
      r2.children = [.text "bar"] →
      ∃ rs k row, Cell.scan_data d = .ok rs ∧ rs[j]? = some (.ok (k, row)) ∧
        rowLookup "content" row = some (.str "foobar")) ∧
    (∀ c : TableCell, cellContent c = specCellContent c) := by
  constructor
  · intro d j c p r1 r2 hc hcc hpc h1 h2
    obtain ⟨th, hth⟩ := cellScanRows_get d j c hc
    refine ⟨cellScanRows d, (cellScanRow th c).fst, (cellScanRow th c).snd, rfl, hth, ?_⟩
    rw [rowLookup_cellScanRow_content]
    have hfoobar : cellContent c = "foobar" := by
      unfold cellContent
      rw [hcc]
      simp only [List.flatMap_cons, List.flatMap_nil, paraChildren, List.append_nil]
      rw [hpc]
      simp only [List.flatMap_cons, List.flatMap_nil, runChildrenOf, List.append_nil]
      rw [h1, h2]
      rfl
    rw [hfoobar]
  · exact cellContent_eq_spec

/-- Witness for C5 at a concrete input: `fooBarDoc` holds the cell in its
only table, and its scan projects content `"foobar"`. -/
theorem c5_content_concatenation_witness :
    (cellsOf fooBarDoc)[0]? = some fooBarCell ∧
    fooBarCell.children = [.paragraph ⟨[.run ⟨[.text "foo"]⟩, .run ⟨[.text "bar"]⟩]⟩] ∧
    (∃ rs k row, Cell.scan_data fooBarDoc = .ok rs ∧ rs[0]? = some (.ok (k, row)) ∧
      rowLookup "content" row = some (.str "foobar")) :=
  ⟨rfl, rfl,
    c5_content_concatenation.1 fooBarDoc 0 fooBarCell
      ⟨[.run ⟨[.text "foo"]⟩, .run ⟨[.text "bar"]⟩]⟩ ⟨[.text "foo"]⟩ ⟨[.text "bar"]⟩
      rfl rfl rfl rfl rfl⟩

/-! ## Row projection lookups -/

theorem rowLookup_tableScanRow_hash (t : Table) :
    rowLookup "hash" (tableScanRow t).snd = some (.str (tableHash t)) := rfl

theorem rowLookup_tableScanRow_row_number (t : Table) :
    rowLookup "row_number" (tableScanRow t).snd = some (.i32 (natAsI32 t.rows.length)) := rfl

theorem rowLookup_tableScanRow_column_number (t : Table) (r1 : TableRow)
    (rest : List TableChild) (h : t.rows = .tableRow r1 :: rest) :
    rowLookup "column_number" (tableScanRow t).snd =
      some (.u32 (natAsU32 r1.cells.length)) := by
  have hbase : rowLookup "column_number" (tableScanRow t).snd =
      some (.u32 (natAsU32 (((t.rows.get? 0).map fun item => match item with
        | .tableRow table_row => table_row.cells.length).getD 0))) := rfl
  rw [hbase, h]
  rfl

theorem rowLookup_cellScanRow_table_hash (th : String) (c : TableCell) :
    rowLookup "table_hash" (cellScanRow th c).snd = some (.str th) := rfl

/-- Claim C2: a document whose only top-level table is 2×3 scans to exactly
one `"tables"` row with row_number 2 and column_number 3, and to exactly six
`"cell"` rows whose `table_hash` all equal that row's `hash` column. -/
theorem c2_projection_completeness (d : Document) (t : Table) (r1 r2 : TableRow)
    (ht : tablesOf d = [t])
    (hr : t.rows = [.tableRow r1, .tableRow r2])
    (h1 : r1.cells.length = 3) (h2 : r2.cells.length = 3) :
    ∃ k row, Tables.scan_data d = .ok [.ok (k, row)] ∧
      rowLookup "row_number" row = some (.i32 2) ∧
      rowLookup "column_number" row = some (.u32 3) ∧
      ∃ rs, Cell.scan_data d = .ok rs ∧ rs.length = 6 ∧
        ∀ x ∈ rs, ∃ ck crow, x = .ok (ck, crow) ∧
          rowLookup "table_hash" crow = rowLookup "hash" row := by
  have hscan : tablesScanRows d = [.ok (tableScanRow t)] := by
    rw [tablesScanRows_eq, ht]; rfl
  refine ⟨Key.str (tableHash t), (tableScanRow t).snd, ?_, ?_, ?_,
    cellScanRows d, rfl, ?_, ?_⟩
  · show Except.ok (tablesScanRows d) = _
    rw [hscan]
    rfl
  · rw [rowLookup_tableScanRow_row_number, hr]
    simp only [List.length_cons, List.length_nil]
    decide
  · rw [rowLookup_tableScanRow_column_number t r1 [.tableRow r2] hr, h1]
    decide
  · rw [cellScanRows_eq, ht]
    simp [cellsOfTable, hr, List.flatMap_cons, h1, h2]
  · intro x hx
    rw [cellScanRows_eq, ht] at hx
    simp only [List.flatMap_cons, List.flatMap_nil, List.append_nil, List.mem_map] at hx
    obtain ⟨c, -, rfl⟩ := hx
    exact ⟨(cellScanRow (tableHash t) c).fst, (cellScanRow (tableHash t) c).snd, rfl,
      by rw [rowLookup_cellScanRow_table_hash, rowLookup_tableScanRow_hash]⟩

/-- Witness for C2 at a concrete input: the document `twoByThreeDoc`. -/
theorem c2_projection_completeness_witness :
    tablesOf twoByThreeDoc = [⟨[rowOfThree, rowOfThree], emptyTableProperty⟩] ∧
    (⟨[rowOfThree, rowOfThree], emptyTableProperty⟩ : Table).rows =
      [.tableRow threeCells, .tableRow threeCells] ∧
    threeCells.cells.length = 3 ∧
    (∃ k row, Tables.scan_data twoByThreeDoc = .ok [.ok (k, row)] ∧
      rowLookup "row_number" row = some (.i32 2) ∧
      rowLookup "column_number" row = some (.u32 3) ∧
      ∃ rs, Cell.scan_data twoByThreeDoc = .ok rs ∧ rs.length = 6 ∧
        ∀ x ∈ rs, ∃ ck crow, x = .ok (ck, crow) ∧
          rowLookup "table_hash" crow = rowLookup "hash" row) :=
  ⟨rfl, rfl, rfl,
    c2_projection_completeness twoByThreeDoc ⟨[rowOfThree, rowOfThree], emptyTableProperty⟩
      threeCells threeCells rfl rfl rfl rfl⟩

/-! ## Border frame lemmas -/

theorem tables_insert_snd (d : Document) (rows : List (Key × DataRow)) :
    (Tables.insert_data d rows).snd = ⟨d.children.map (Tables.applyDocChild rows)⟩ := rfl

theorem cell_insert_snd (d : Document) (rows : List (Key × DataRow)) :
    (Cell.insert_data d rows).snd = ⟨d.children.map (Cell.applyDocChild rows)⟩ := rfl

def borderColumnNames : List String :=
  ["borders_top", "borders_left", "borders_bottom", "borders_right",
   "borders_inside_h", "borders_inside_v"]

theorem tableBorderProj_null (t : Table) (col : String) (h : col ∈ borderColumnNames) :
    rowColProj col (.ok (tableScanRow t)) = some Value.null := by
  fin_cases h
  · rw [show rowColProj "borders_top" (Except.ok (tableScanRow t)) =
      some (tableBorderRead t.property "top") from rfl, tableBorderRead_null]
  · rw [show rowColProj "borders_left" (Except.ok (tableScanRow t)) =
      some (tableBorderRead t.property "left") from rfl, tableBorderRead_null]
  · rw [show rowColProj "borders_bottom" (Except.ok (tableScanRow t)) =
      some (tableBorderRead t.property "bottom") from rfl, tableBorderRead_null]
  · rw [show rowColProj "borders_right" (Except.ok (tableScanRow t)) =
      some (tableBorderRead t.property "right") from rfl, tableBorderRead_null]
  · rw [show rowColProj "borders_inside_h" (Except.ok (tableScanRow t)) =
      some (tableBorderRead t.property "insideH") from rfl, tableBorderRead_null]
  · rw [show rowColProj "borders_inside_v" (Except.ok (tableScanRow t)) =
      some (tableBorderRead t.property "insideV") from rfl, tableBorderRead_null]

theorem cellBorderProj_null (th : String) (c : TableCell) (col : String)
    (h : col ∈ borderColumnNames) :
    rowColProj col (.ok (cellScanRow th c)) = some Value.null := by
  fin_cases h
  · rw [show rowColProj "borders_top" (Except.ok (cellScanRow th c)) =
      some (cellBorderRead c.property "top") from rfl, cellBorderRead_null]
  · rw [show rowColProj "borders_left" (Except.ok (cellScanRow th c)) =
      some (cellBorderRead c.property "left") from rfl, cellBorderRead_null]
  · rw [show rowColProj "borders_bottom" (Except.ok (cellScanRow th c)) =
      some (cellBorderRead c.property "bottom") from rfl, cellBorderRead_null]
  · rw [show rowColProj "borders_right" (Except.ok (cellScanRow th c)) =
      some (cellBorderRead c.property "right") from rfl, cellBorderRead_null]
  · rw [show rowColProj "borders_inside_h" (Except.ok (cellScanRow th c)) =
      some (cellBorderRead c.property "insideH") from rfl, cellBorderRead_null]
  · rw [show rowColProj "borders_inside_v" (Except.ok (cellScanRow th c)) =
      some (cellBorderRead c.property "insideV") from rfl, cellBorderRead_null]

theorem map_proj_tablesScan (d : Document) (col : String) (h : col ∈ borderColumnNames) :
    (tablesScanRows d).map (rowColProj col) =
      List.replicate (tablesOf d).length (some Value.null) := by
  rw [tablesScanRows_eq, List.map_map]
  have hfun : (rowColProj col ∘ fun t =>
      (Except.ok (tableScanRow t) : Except StorageError (Key × DataRow))) =
      fun _ => some Value.null := by
    funext t
    exact tableBorderProj_null t col h
  rw [hfun]
  exact List.map_const' _ _

theorem map_proj_cellScan (d : Document) (col : String) (h : col ∈ borderColumnNames) :
    (cellScanRows d).map (rowColProj col) =
      List.replicate (cellScanRows d).length (some Value.null) := by
  have hlen : ((cellScanRows d).map (rowColProj col)).length = (cellScanRows d).length :=
    List.length_map _ _
  rw [← hlen]
  apply List.eq_replicate_of_mem
  intro b hb
  rw [List.mem_map] at hb
  obtain ⟨x, hx, rfl⟩ := hb
  rw [cellScanRows_eq] at hx
  simp only [List.mem_flatMap, List.mem_map] at hx
  obtain ⟨t, -, c, -, rfl⟩ := hx
  exact cellBorderProj_null (tableHash t) c col h

theorem flatMap_cellsOf_aux (ts : List Table) (rows : List (Key × DataRow)) :
    ((ts.map (fun t => { t with rows := t.rows.map (Cell.applyTableChild rows) })).flatMap
        cellsOfTable) =
      (ts.flatMap cellsOfTable).map (fun c => Cell.applyCell c rows) := by
  induction ts with
  | nil => rfl
  | cons t rest ih =>
    simp only [List.map_cons, List.flatMap_cons, List.map_append, ih]
    rw [cellsOfTable_cellApply]

theorem scanRows_len_aux (ts : List Table) :
    (ts.flatMap fun t => (cellsOfTable t).map
        (fun c => (Except.ok (cellScanRow (tableHash t) c) :
          Except StorageError (Key × DataRow)))).length =
      (ts.flatMap cellsOfTable).length := by
  induction ts with
  | nil => rfl
  | cons t rest ih =>
    simp only [List.flatMap_cons, List.length_append, List.length_map, ih]

theorem cellScanRows_length (d : Document) :
    (cellScanRows d).length = (cellsOf d).length := by
  rw [cellScanRows_eq, cellsOf_eq]
  exact scanRows_len_aux (tablesOf d)

theorem cellsOf_cell_insert (children : List DocumentChild) (rows : List (Key × DataRow)) :
    cellsOf (Cell.insert_data ⟨children⟩ rows).snd =
      (cellsOf ⟨children⟩).map (fun c => Cell.applyCell c rows) := by
  rw [cell_insert_snd, cellsOf_eq, cellsOf_eq]
  have h1 : tablesOf ⟨List.map (Cell.applyDocChild rows) (({ children := children } : Document).children)⟩ =
      (tablesOf ⟨children⟩).map
        (fun t => { t with rows := t.rows.map (Cell.applyTableChild rows) }) :=
    tablesOf_map_cell children rows
  rw [h1]
  exact flatMap_cellsOf_aux (tablesOf ⟨children⟩) rows

theorem cellScanRows_len_insert (children : List DocumentChild) (rows : List (Key × DataRow)) :
    (cellScanRows (Cell.insert_data ⟨children⟩ rows).snd).length =
      (cellScanRows ⟨children⟩).length := by
  rw [cellScanRows_length, cellScanRows_length, cellsOf_cell_insert, List.length_map]

/-- Claim C3: after an update batch that targets only `borders_top`, the
other five border columns of every element — matched by hash or not — project
the same values in a subsequent scan as before the update, for both the
`"tables"` and the `"cell"` virtual tables. -/
theorem c3_border_merge_frame (d : Document) (key : Key) (s : String) (col : String)
    (hcol : col ∈ ["borders_left", "borders_bottom", "borders_right",
      "borders_inside_h", "borders_inside_v"]) :
    (∃ rs rs₀,
      Tables.scan_data
        (Tables.insert_data d [(key, DataRow.map [("borders_top", Value.str s)])]).snd =
          .ok rs ∧
      Tables.scan_data d = .ok rs₀ ∧
      rs.map (rowColProj col) = rs₀.map (rowColProj col)) ∧
    (∃ rs rs₀,
      Cell.scan_data
        (Cell.insert_data d [(key, DataRow.map [("borders_top", Value.str s)])]).snd =
          .ok rs ∧
      Cell.scan_data d = .ok rs₀ ∧
      rs.map (rowColProj col) = rs₀.map (rowColProj col)) := by
  have hcol6 : col ∈ borderColumnNames := by
    fin_cases hcol <;> simp [borderColumnNames]
  cases d with
  | mk children =>
    constructor
    · refine ⟨_, _, rfl, rfl, ?_⟩
      rw [map_proj_tablesScan _ col hcol6, map_proj_tablesScan _ col hcol6]
      have hlen : (tablesOf (Tables.insert_data ⟨children⟩
          [(key, DataRow.map [("borders_top", Value.str s)])]).snd).length =
          (tablesOf ⟨children⟩).length := by
        rw [tables_insert_snd]
        have h1 : tablesOf ⟨List.map (Tables.applyDocChild [(key, DataRow.map [("borders_top", Value.str s)])]) (({ children := children } : Document).children)⟩ =
            (tablesOf ⟨children⟩).map
              (fun t => tablesApplyTable t [(key, DataRow.map [("borders_top", Value.str s)])]) :=
          tablesOf_map_tables children _
        rw [h1, List.length_map]
      rw [hlen]
    · refine ⟨_, _, rfl, rfl, ?_⟩
      rw [map_proj_cellScan _ col hcol6, map_proj_cellScan _ col hcol6,
        cellScanRows_len_insert]

/-- Witness for C3 at a concrete input: `oneTableDoc`, an arbitrary key and
value, and the `borders_left` column. -/
theorem c3_border_merge_frame_witness :
    ("borders_left" ∈ ["borders_left", "borders_bottom", "borders_right",
      "borders_inside_h", "borders_inside_v"]) ∧
    ((∃ rs rs₀,
      Tables.scan_data
        (Tables.insert_data oneTableDoc
          [(Key.str "k", DataRow.map [("borders_top", Value.str "x")])]).snd = .ok rs ∧
      Tables.scan_data oneTableDoc = .ok rs₀ ∧
      rs.map (rowColProj "borders_left") = rs₀.map (rowColProj "borders_left")) ∧
    (∃ rs rs₀,
      Cell.scan_data
        (Cell.insert_data oneTableDoc
          [(Key.str "k", DataRow.map [("borders_top", Value.str "x")])]).snd = .ok rs ∧
      Cell.scan_data oneTableDoc = .ok rs₀ ∧
      rs.map (rowColProj "borders_left") = rs₀.map (rowColProj "borders_left"))) :=
  ⟨by simp,
   c3_border_merge_frame oneTableDoc (Key.str "k") "x" "borders_left" (by simp)⟩

/-! ## Width round-trip lemmas -/

theorem tableProperty_get_width (p : TableProperty) :
    p.toJson.get "width" = some (optionToJson TableWidth.toJson p.width) := rfl

theorem json_pre_width (p : TableProperty) (w : Nat) (wt : WidthType)
    (h : p.width = some ⟨w, wt⟩) :
    ((((p.toJson.get "width").bind (fun j => j.get "width")).bind Json.asU64)).getD 0 = w := by
  rw [tableProperty_get_width, h]
  simp [optionToJson, TableWidth.toJson, Json.get, Json.asU64, List.lookup]

theorem json_pre_width_type (p : TableProperty) (w : Nat) (wt : WidthType)
    (h : p.width = some ⟨w, wt⟩) :
    (((p.toJson.get "width").bind (fun j => j.get "widthType")).bind Json.asStr) =
      some wt.toStr := by
  rw [tableProperty_get_width, h]
  simp [optionToJson, TableWidth.toJson, Json.get, Json.asStr, List.lookup]

theorem tableWidthRead_of (p : TableProperty) (w : Nat) (wt : WidthType)
    (h : p.width = some ⟨w, wt⟩) :
    tableWidthRead p = natAsU32 w := by
  unfold tableWidthRead
  rw [tableProperty_get_width, h]
  simp [optionToJson, TableWidth.toJson, Json.get, Json.asU64, List.lookup]

theorem tableWidthTypeRead_of (p : TableProperty) (w : Nat) (wt : WidthType)
    (h : p.width = some ⟨w, wt⟩) :
    tableWidthTypeRead p = wt.toStr := by
  unfold tableWidthTypeRead
  rw [tableProperty_get_width, h]
  simp [optionToJson, TableWidth.toJson, Json.get, Json.asStr, List.lookup]

theorem setWidth_width (p : TableProperty) (w : Nat) (wt : WidthType) :
    (p.setWidth w wt).width = some ⟨w, wt⟩ := rfl

theorem applyKv_width_shape (t : Table) (n : Nat) :
    ∃ wt, (docxApplyKv t "width" (Value.u32 n)).property.width = some ⟨n, wt⟩ := by
  refine ⟨((((t.property.toJson.get "width").bind (fun j => j.get "widthType")).bind
    Json.asStr).bind WidthType.fromStr).getD .unsupported, ?_⟩
  simp only [docxApplyKv]
  simp only [show ("width" = "width") = True by simp,
    show ("width" = "width_type") = False by simp,
    show ("width" = "justification") = False by simp,
    if_true, if_false, ite_true, ite_false]
  rfl

theorem applyKv_width_type_dxa (t : Table) (w : Nat) (wt : WidthType)
    (h : t.property.width = some ⟨w, wt⟩) :
    (docxApplyKv t "width_type" (Value.str "dxa")).property.width =
      some ⟨w, WidthType.dxa⟩ := by
  have hw := json_pre_width t.property w wt h
  simp only [docxApplyKv]
  simp only [show ("width_type" = "width") = False by simp,
    show ("width_type" = "width_type") = True by simp,
    show ("width_type" = "justification") = False by simp,
    if_true, if_false, ite_true, ite_false]
  rw [hw]
  rfl

theorem applyKv_width_keep_type (t : Table) (w0 n : Nat)
    (h : t.property.width = some ⟨w0, WidthType.dxa⟩) :
    (docxApplyKv t "width" (Value.u32 n)).property.width =
      some ⟨n, WidthType.dxa⟩ := by
  have hwt := json_pre_width_type t.property w0 .dxa h
  simp only [docxApplyKv]
  simp only [show ("width" = "width") = True by simp,
    show ("width" = "width_type") = False by simp,
    show ("width" = "justification") = False by simp,
    if_true, if_false, ite_true, ite_false]
  rw [hwt]
  rfl

theorem applyKv_width_type_shape (t : Table) :
    ∃ w1, (docxApplyKv t "width_type" (Value.str "dxa")).property.width =
      some ⟨w1, WidthType.dxa⟩ := by
  refine ⟨((((t.property.toJson.get "width").bind (fun j => j.get "width")).bind
    Json.asU64)).getD 0, ?_⟩
  simp only [docxApplyKv]
  simp only [show ("width_type" = "width") = False by simp,
    show ("width_type" = "width_type") = True by simp,
    show ("width_type" = "justification") = False by simp,
    if_true, if_false, ite_true, ite_false]
  rfl

theorem docxApplyTable_single (t : Table) (kvs : List (String × Value)) :
    docxApplyTable t [(Key.str (tableHash t), DataRow.map kvs)] =
      kvs.foldl (fun t kv => docxApplyKv t kv.fst kv.snd) t := by
  unfold docxApplyTable
  simp

theorem rowLookup_tableScanRow_width (t : Table) :
    rowLookup "width" (tableScanRow t).snd = some (.u32 (tableWidthRead t.property)) := rfl

theorem rowLookup_tableScanRow_width_type (t : Table) :
    rowLookup "width_type" (tableScanRow t).snd =
      some (.str (tableWidthTypeRead t.property)) := rfl

/-- Claim C1: an update to the `"tables"` virtual table keyed by a table's
current content hash that sets width 100 and width_type `"dxa"` (in either
order the row map may be iterated) makes a subsequent scan project that table
with width 100 and width_type `"dxa"`. -/
theorem c1_width_roundtrip (d : Document) (j : Nat) (t : Table)
    (kvs : List (String × Value))
    (ht : (tablesOf d)[j]? = some t)
    (hkvs : kvs = [("width", Value.u32 100), ("width_type", Value.str "dxa")] ∨
            kvs = [("width_type", Value.str "dxa"), ("width", Value.u32 100)]) :
    ∃ rs k row,
      DocxDb.scan_data
        (DocxDb.insert_data d "tables" [(Key.str (tableHash t), DataRow.map kvs)]).snd
        "tables" = .ok rs ∧
      rs[j]? = some (.ok (k, row)) ∧
      rowLookup "width" row = some (.u32 100) ∧
      rowLookup "width_type" row = some (.str "dxa") := by
  cases d with
  | mk children =>
    have hwidth : (kvs.foldl (fun t kv => docxApplyKv t kv.fst kv.snd) t).property.width =
        some ⟨100, WidthType.dxa⟩ := by
      rcases hkvs with rfl | rfl
      · simp only [List.foldl_cons, List.foldl_nil]
        obtain ⟨wt, h1⟩ := applyKv_width_shape t 100
        exact applyKv_width_type_dxa _ 100 wt h1
      · simp only [List.foldl_cons, List.foldl_nil]
        obtain ⟨w1, h1⟩ := applyKv_width_type_shape t
        exact applyKv_width_keep_type _ w1 100 h1
    have happly : docxApplyTable t [(Key.str (tableHash t), DataRow.map kvs)] =
        kvs.foldl (fun t kv => docxApplyKv t kv.fst kv.snd) t :=
      docxApplyTable_single t kvs
    have hsnd : (DocxDb.insert_data ⟨children⟩ "tables"
        [(Key.str (tableHash t), DataRow.map kvs)]).snd =
        ⟨children.map (DocxDb.applyDocChild [(Key.str (tableHash t), DataRow.map kvs)])⟩ :=
      rfl
    refine ⟨tablesScanRows (DocxDb.insert_data ⟨children⟩ "tables"
        [(Key.str (tableHash t), DataRow.map kvs)]).snd,
      (tableScanRow (docxApplyTable t [(Key.str (tableHash t), DataRow.map kvs)])).fst,
      (tableScanRow (docxApplyTable t [(Key.str (tableHash t), DataRow.map kvs)])).snd,
      rfl, ?_, ?_, ?_⟩
    · rw [hsnd, tablesScanRows_eq, tablesOf_map_docx, List.getElem?_map, List.getElem?_map, ht]
      rfl
    · rw [happly, rowLookup_tableScanRow_width, tableWidthRead_of _ 100 .dxa hwidth]
      rfl
    · rw [happly, rowLookup_tableScanRow_width_type, tableWidthTypeRead_of _ 100 .dxa hwidth]
      rfl

/-- Witness for C1 at a concrete input: `oneTableDoc`, its only table, and
the width-first row map. -/
theorem c1_width_roundtrip_witness :
    (tablesOf oneTableDoc)[0]? = some emptyTable ∧
    (∃ rs k row,
      DocxDb.scan_data
        (DocxDb.insert_data oneTableDoc "tables" [(Key.str (tableHash emptyTable),
          DataRow.map [("width", Value.u32 100), ("width_type", Value.str "dxa")])]).snd
        "tables" = .ok rs ∧
      rs[0]? = some (.ok (k, row)) ∧
      rowLookup "width" row = some (.u32 100) ∧
      rowLookup "width_type" row = some (.str "dxa")) :=
  ⟨rfl, c1_width_roundtrip oneTableDoc 0 emptyTable
    [("width", Value.u32 100), ("width_type", Value.str "dxa")] rfl (Or.inl rfl)⟩
